import Mathlib

/-!
# Verification of the EmotiCare analysis pipeline (`app.py`)

This file gives a shallow embedding of the logic of `app.py`:

* `pyReplace` models Python's `str.replace(pat, "")` (left-to-right,
  non-overlapping occurrence removal), operating on `List Char`;
* `jsonLoads` models `json.loads` (strict JSON: objects, arrays, strings
  with escapes, numbers, `true`/`false`/`null`, the four JSON whitespace
  characters); recursion is bounded by a generous fuel constant mirroring
  Python's recursion limit;
* `generate_with_fallback` models the candidate-model fallback loop;
* `save_history`, `plot_mood_trend`, `format_history_html` model the
  history helpers;
* `analyze_process` models the pipeline callback, parameterized by the
  outcome of each external model call and by the persisted history, and
  instrumented with a trace of the model calls attempted and with the
  terminal state reached.

Theorems about these definitions follow after all definitions.
-/

set_option maxRecDepth 100000

namespace EmotiCare

/-- Strings are modelled as lists of characters (Python `str` is a sequence
of code points). -/
abbrev Str := List Char

/-- The backtick character (code point 96), written via `Char.ofNat`. -/
def tickC : Char := Char.ofNat 96

/-- Fuel-driven worker for `pyReplace`; the fuel is only a structural
termination device and never runs out when it starts at the input's
length. -/
def pyReplaceGo (pat : Str) : Nat → Str → Str
  | _, [] => []
  | 0, s => s
  | f + 1, c :: rest =>
    if pat ≠ [] ∧ pat.isPrefixOf (c :: rest) = true then
      pyReplaceGo pat f ((c :: rest).drop pat.length)
    else
      c :: pyReplaceGo pat f rest

/-- Python's `s.replace(pat, "")` for a non-empty pattern: scan left to
right, removing non-overlapping occurrences of `pat`.  (For an empty
pattern the scan keeps every character, which agrees with Python's
`s.replace("", "")`.) -/
def pyReplace (pat s : Str) : Str := pyReplaceGo pat s.length s

/-- The seven-character fence marker `"```json"`. -/
def fenceMarkJson : Str := tickC :: tickC :: tickC :: "json".toList

/-- The three-character fence marker `"```"`. -/
def fenceMark : Str := [tickC, tickC, tickC]

/-- The fence-stripping done before every `json.loads` call in `app.py`:
`text.replace('```json', '').replace('```', '')`. -/
def stripFences (s : Str) : Str := pyReplace fenceMark (pyReplace fenceMarkJson s)

/-- Wrapping a content string in code-fence markers, the formatting quirk
some model outputs exhibit: `"```json" ++ content ++ "```"`. -/
def fencedWrap (s : Str) : Str := fenceMarkJson ++ s ++ fenceMark

/-- JSON values as produced by `json.loads`.  Numbers are represented as
`mant * 10 ^ ex` (mantissa and decimal exponent), which is enough to
distinguish every numeral the pipeline inspects. -/
inductive JsonV : Type where
  | jnull : JsonV
  | jbool : Bool → JsonV
  | jnum : Int → Int → JsonV
  | jstr : Str → JsonV
  | jarr : List JsonV → JsonV
  | jobj : List (Str × JsonV) → JsonV

instance : Inhabited JsonV := ⟨.jnull⟩

/-- The four JSON whitespace characters (also what `json.loads` skips). -/
def isWsC (c : Char) : Bool := c = ' ' || c = '\t' || c = '\n' || c = '\r'

/-- Skip leading JSON whitespace. -/
def skipWs (s : Str) : Str := s.dropWhile isWsC

/-- Value of a hexadecimal digit, if any. -/
def hexVal (c : Char) : Option Nat :=
  if '0' ≤ c ∧ c ≤ '9' then some (c.toNat - '0'.toNat)
  else if 'a' ≤ c ∧ c ≤ 'f' then some (c.toNat - 'a'.toNat + 10)
  else if 'A' ≤ c ∧ c ≤ 'F' then some (c.toNat - 'A'.toNat + 10)
  else none

/-- The one-character escape table of JSON string literals: the decoded
character of `\x` for the eight simple escapes, `none` otherwise. -/
def escDecode (c : Char) : Option Char :=
  if c = '"' then some '"'
  else if c = '\\' then some '\\'
  else if c = '/' then some '/'
  else if c = 'b' then some '\x08'
  else if c = 'f' then some '\x0c'
  else if c = 'n' then some '\n'
  else if c = 'r' then some '\r'
  else if c = 't' then some '\t'
  else none

/-- Parse the body of a JSON string literal (everything after the opening
quote, through the closing quote).  Returns the decoded characters and the
remaining input.  Raw control characters are rejected, escapes are decoded
(`\uXXXX` taken as a single code unit; surrogate pairs are not combined,
which no input in this development exercises). -/
def parseStringBody : Str → Option (Str × Str)
  | [] => none
  | c :: rest =>
    if c = '"' then some ([], rest)
    else if c = '\\' then
      match rest with
      | [] => none
      | c2 :: rest2 =>
        if c2 = 'u' then
          match rest2 with
          | h1 :: h2 :: h3 :: h4 :: t =>
            (match hexVal h1, hexVal h2, hexVal h3, hexVal h4 with
             | some a, some b, some x, some d =>
               (parseStringBody t).map
                 (fun p => (Char.ofNat (((a * 16 + b) * 16 + x) * 16 + d) :: p.1, p.2))
             | _, _, _, _ => none)
          | _ => none
        else
          match escDecode c2 with
          | some d => (parseStringBody rest2).map (fun p => (d :: p.1, p.2))
          | none => none
    else if c.toNat < 32 then none
    else (parseStringBody rest).map (fun p => (c :: p.1, p.2))

/-- Characters that may continue a JSON number token. -/
def numSpanChar (c : Char) : Bool :=
  c.isDigit || c = '.' || c = 'e' || c = 'E' || c = '+' || c = '-'

/-- Digits to a natural number. -/
def digitsToNat (ds : Str) : Nat := ds.foldl (fun a c => a * 10 + (c.toNat - '0'.toNat)) 0

/-- Validate a maximal span of number characters against the JSON number
grammar `-?(0|[1-9][0-9]*)(\.[0-9]+)?([eE][+-]?[0-9]+)?` and compute its
value as mantissa and decimal exponent. -/
def validateNum (tok : Str) : Option (Int × Int) :=
  let (sgn, t1) : Int × Str :=
    match tok with
    | '-' :: t => (-1, t)
    | t => (1, t)
  let ip := t1.takeWhile Char.isDigit
  let t2 := t1.dropWhile Char.isDigit
  if ip = [] then none
  else if ip.head? = some '0' ∧ ip.length ≠ 1 then none
  else
    let (fd, t3) : Str × Str :=
      match t2 with
      | '.' :: t => (t.takeWhile Char.isDigit, t.dropWhile Char.isDigit)
      | t => ([], t)
    if t2 ≠ [] ∧ t2.head? = some '.' ∧ fd = [] then none
    else
      match t3 with
      | [] => some (sgn * digitsToNat (ip ++ fd), - (fd.length : Int))
      | e :: t4 =>
        if e = 'e' ∨ e = 'E' then
          let (esgn, t5) : Int × Str :=
            match t4 with
            | '+' :: t => (1, t)
            | '-' :: t => (-1, t)
            | t => (1, t)
          let ed := t5.takeWhile Char.isDigit
          if ed = [] ∨ t5.dropWhile Char.isDigit ≠ [] then none
          else some (sgn * digitsToNat (ip ++ fd), esgn * digitsToNat ed - (fd.length : Int))
        else none

/-- Parse a JSON number: take the maximal span of number characters and
validate it.  (Equivalent to `json.loads`' regex match: in every accepting
context the character after the matched number is never a number
character.) -/
def parseNumber (s : Str) : Option ((Int × Int) × Str) :=
  (validateNum (s.takeWhile numSpanChar)).map (fun v => (v, s.dropWhile numSpanChar))

mutual

/-- Parse a JSON value (leading whitespace skipped), returning the value
and the remaining input.  Fuel bounds the recursion depth, mirroring
Python's recursion limit; `jsonFuel` is generous enough for every input
considered here. -/
def parseVal : Nat → Str → Option (JsonV × Str)
  | 0, _ => none
  | f + 1, s =>
    let s1 := skipWs s
    if ("true".toList).isPrefixOf s1 then some (.jbool true, s1.drop 4)
    else if ("false".toList).isPrefixOf s1 then some (.jbool false, s1.drop 5)
    else if ("null".toList).isPrefixOf s1 then some (.jnull, s1.drop 4)
    else
      match s1 with
      | '"' :: t => (parseStringBody t).map (fun p => (.jstr p.1, p.2))
      | '{' :: t =>
        (match skipWs t with
         | '}' :: r => some (.jobj [], r)
         | _ => (parseMembers f t).map (fun p => (.jobj p.1, p.2)))
      | '[' :: t =>
        (match skipWs t with
         | ']' :: r => some (.jarr [], r)
         | _ => (parseElems f t).map (fun p => (.jarr p.1, p.2)))
      | _ => (parseNumber s1).map (fun p => (.jnum p.1.1 p.1.2, p.2))

/-- Parse the elements of a non-empty JSON array, through the closing
bracket. -/
def parseElems : Nat → Str → Option (List JsonV × Str)
  | 0, _ => none
  | f + 1, s =>
    match parseVal f s with
    | none => none
    | some (v, r) =>
      match skipWs r with
      | ',' :: t => (parseElems f t).map (fun p => (v :: p.1, p.2))
      | ']' :: t => some ([v], t)
      | _ => none

/-- Parse the members of a non-empty JSON object, through the closing
brace. -/
def parseMembers : Nat → Str → Option (List (Str × JsonV) × Str)
  | 0, _ => none
  | f + 1, s =>
    match skipWs s with
    | '"' :: t =>
      (match parseStringBody t with
       | none => none
       | some (k, r1) =>
         match skipWs r1 with
         | ':' :: r2 =>
           (match parseVal f r2 with
            | none => none
            | some (v, r3) =>
              match skipWs r3 with
              | ',' :: t2 => (parseMembers f t2).map (fun p => ((k, v) :: p.1, p.2))
              | '}' :: t2 => some ([(k, v)], t2)
              | _ => none)
         | _ => none)
    | _ => none

end

/-- Recursion fuel for `jsonLoads`, standing in for Python's recursion
limit. -/
def jsonFuel : Nat := 100000

/-- `json.loads`: parse one JSON value, allowing only trailing whitespace.
`none` models a raised `json.JSONDecodeError`. -/
def jsonLoads (s : Str) : Option JsonV :=
  match parseVal jsonFuel s with
  | some (v, r) => if skipWs r = [] then some v else none
  | none => none

/-- The response handling applied to every structured model response in
`analyze_process`: `json.loads(text.replace('```json', '').replace('```', ''))`. -/
def parseResponse (s : Str) : Option JsonV := jsonLoads (stripFences s)

/-! ## Python value operations

The pipeline manipulates `json.loads` results with `dict.get`, item
access, `len`, subscripts, `join` and string interpolation.  Errors are
modelled as `Except PyErr`, where `PyErr` is the rendered `str(e)` text
(the precise wording of messages raised by the Python runtime is
abstracted to a fixed representative; the pipeline only ever prepends
`"Error: "` to it). -/

/-- A raised Python exception, carrying its rendered message. -/
abbrev PyErr := Str

/-- Last-binding association lookup: `json.loads` builds a `dict`, where a
repeated key keeps the last value. -/
def assocLast (kvs : List (Str × JsonV)) (k : Str) : Option JsonV :=
  kvs.foldl (fun acc p => if p.1 = k then some p.2 else acc) none

/-- `v.get(k, d)` — only `dict` has `.get`; anything else raises
`AttributeError`. -/
def pyGet (v : JsonV) (k : Str) (d : JsonV) : Except PyErr JsonV :=
  match v with
  | .jobj kvs => .ok ((assocLast kvs k).getD d)
  | _ => .error "object has no attribute \x27get\x27".toList

/-- `v.get(k)` — missing key yields `None`. -/
def pyGetNone (v : JsonV) (k : Str) : Except PyErr JsonV := pyGet v k .jnull

/-- `v[k]` for a string key — `KeyError` when missing, `TypeError` on a
non-dict. -/
def pyGetItemKey (v : JsonV) (k : Str) : Except PyErr JsonV :=
  match v with
  | .jobj kvs =>
    match assocLast kvs k with
    | some x => .ok x
    | none => .error ("\x27".toList ++ k ++ "\x27".toList)
  | _ => .error "object is not subscriptable with str".toList

/-- `v[i]` for a non-negative index — `IndexError` out of range; a string
subscript yields a one-character string. -/
def pyIndex (v : JsonV) (i : Nat) : Except PyErr JsonV :=
  match v with
  | .jarr xs =>
    match xs.get? i with
    | some x => .ok x
    | none => .error "list index out of range".toList
  | .jstr s =>
    match s.get? i with
    | some c => .ok (.jstr [c])
    | none => .error "string index out of range".toList
  | _ => .error "object is not subscriptable".toList

/-- `len(v)` — `TypeError` on values without a length. -/
def pyLenJ (v : JsonV) : Except PyErr Nat :=
  match v with
  | .jarr xs => .ok xs.length
  | .jstr s => .ok s.length
  | .jobj kvs => .ok kvs.length
  | _ => .error "object has no len()".toList

/-- Python truthiness of a `json.loads` value. -/
def pyTruthy : JsonV → Bool
  | .jnull => false
  | .jbool b => b
  | .jnum m _ => m ≠ 0
  | .jstr s => s ≠ []
  | .jarr xs => !xs.isEmpty
  | .jobj kvs => !kvs.isEmpty

/-- Interleave a separator between strings. -/
def intercalateStr (sep : Str) : List Str → Str
  | [] => []
  | [x] => x
  | x :: xs => x ++ sep ++ intercalateStr sep xs

/-- Extract the strings of an all-string list. -/
def strItems : List JsonV → Option (List Str)
  | [] => some []
  | .jstr s :: rest => (strItems rest).map (s :: ·)
  | _ => none

/-- `sep.join(v)` — accepts a list of strings or a string, `TypeError`
otherwise. -/
def pyJoin (sep : Str) (v : JsonV) : Except PyErr Str :=
  match v with
  | .jarr xs =>
    match strItems xs with
    | some ss => .ok (intercalateStr sep ss)
    | none => .error "sequence item: expected str instance".toList
  | .jstr s => .ok (intercalateStr sep (s.map (fun c => [c])))
  | _ => .error "can only join an iterable".toList

/-- Rendering of a numeral `mant * 10 ^ ex`.  An integer literal renders
like Python's `str(int)`; a fractional value renders in plain decimal
form.  (A float literal whose exponent makes it integral would render in
Python with a trailing `.0`; that distinction is not tracked, and no field
the pipeline renders exercises it.) -/
def numRepr (m : Int) (e : Int) : Str :=
  if 0 ≤ e then (toString (m * (10 : Int) ^ e.toNat)).toList
  else
    let k := (-e).toNat
    let a := m.natAbs
    let ip := a / 10 ^ k
    let fp := a % 10 ^ k
    let ds := (toString fp).toList
    (if m < 0 then ['-'] else []) ++ (toString ip).toList ++ ['.'] ++
      List.replicate (k - ds.length) '0' ++ ds

mutual

/-- Python `repr` of a `json.loads` value (element of rendered
containers); string quoting is simplified to bare single quotes. -/
def pyRepr : JsonV → Str
  | .jnull => "None".toList
  | .jbool true => "True".toList
  | .jbool false => "False".toList
  | .jnum m e => numRepr m e
  | .jstr s => "\x27".toList ++ s ++ "\x27".toList
  | .jarr xs => "[".toList ++ pyReprList xs ++ "]".toList
  | .jobj kvs => "\x7b".toList ++ pyReprObj kvs ++ "\x7d".toList

/-- `repr` of list elements, comma-separated. -/
def pyReprList : List JsonV → Str
  | [] => []
  | [x] => pyRepr x
  | x :: xs => pyRepr x ++ ", ".toList ++ pyReprList xs

/-- `repr` of dict items, comma-separated. -/
def pyReprObj : List (Str × JsonV) → Str
  | [] => []
  | [p] => "\x27".toList ++ p.1 ++ "\x27: ".toList ++ pyRepr p.2
  | p :: ps => "\x27".toList ++ p.1 ++ "\x27: ".toList ++ pyRepr p.2 ++ ", ".toList ++ pyReprObj ps

end

/-- Python `str()` of a `json.loads` value, as interpolated by f-strings. -/
def pyStr : JsonV → Str
  | .jnull => "None".toList
  | .jbool true => "True".toList
  | .jbool false => "False".toList
  | .jnum m e => numRepr m e
  | .jstr s => s
  | .jarr xs => pyRepr (.jarr xs)
  | .jobj kvs => pyRepr (.jobj kvs)

/-! ## Configuration (`app.py` lines 14–19) -/

/-- The placeholder default for the API key: a non-empty string. -/
def DEFAULT_KEY : Str := "Enter Your GEMINI API KEY HERE".toList

/-- `API_KEY = os.getenv("GEMINI_API_KEY", DEFAULT_KEY)`: the environment
variable when set, the placeholder otherwise. -/
def API_KEY_from (env : Option Str) : Str := env.getD DEFAULT_KEY

/-! ## Model fallback (`generate_with_fallback`, lines 158–184) -/

/-- The fixed priority-ordered candidate model list. -/
def candidate_models : List Str :=
  ["gemini-2.5-flash".toList, "gemini-2.5-pro".toList,
   "gemini-pro".toList, "gemini-2.0-pro".toList]

/-- The fallback loop body: try each candidate in order, remembering the
last error; return the attempted candidates and the outcome.  An empty
candidate list re-raises the recorded error (`raise None` — a `TypeError`
— if none was recorded, which the fixed list never exercises). -/
def genLoop (call : Str → Except PyErr Str) :
    List Str → Option PyErr → List Str × Except PyErr Str
  | [], last => ([], .error (last.getD "exceptions must derive from BaseException".toList))
  | m :: ms, _ =>
    match call m with
    | .ok r => ([m], .ok r)
    | .error e =>
      let p := genLoop call ms (some e)
      (m :: p.1, p.2)

/-- `generate_with_fallback(prompt)`, with the external service modelled
by `call : model name ↦ outcome` (the prompt is already applied).  Returns
the list of candidates attempted, in order, together with the first
successful response or the raised error. -/
def generate_with_fallback (call : Str → Except PyErr Str) : List Str × Except PyErr Str :=
  genLoop call candidate_models none

/-! ## Prompt templates (lines 22–83), with `.format` applied -/

/-- `MOOD_DETECTION_PROMPT.format(input_text=...)`. -/
def MOOD_DETECTION_PROMPT (input_text : Str) : Str :=
  ("\nYou are an expert psychological mood analyzer. Analyze the following user input (text and/or audio transcript) and determine the user\x27s current mood.\nClassify the mood into one of these labels: Happy, Sad, Anxious, Angry, Neutral, Overwhelmed, Depressive, Suicidal-Risk.\nAlso provide a confidence score (0-100).\nInput: \"").toList ++
  input_text ++
  ("\"\nOutput format (JSON):\n\x7b\n  \"mood\": \"Label\",\n  \"confidence\": 85,\n  \"risk_flag\": boolean\n\x7d\n").toList

/-- `THERAPY_RESPONSE_PROMPT.format(input_text=..., mood=...)`. -/
def THERAPY_RESPONSE_PROMPT (input_text mood : Str) : Str :=
  ("\nYou are a compassionate, empathetic therapy coach named EmotiCare. The user is feeling \"").toList ++
  mood ++
  ("\".\nGenerate a supportive, non-judgmental response. Acknowledge their feelings, validate them, and offer a comforting perspective.\nKeep it warm and conversational. Do not diagnose.\nUser Input: \"").toList ++
  input_text ++ ("\"\n").toList

/-- `JOURNALING_ANALYSIS_PROMPT.format(input_text=..., mood=...)`. -/
def JOURNALING_ANALYSIS_PROMPT (input_text mood : Str) : Str :=
  ("\nAnalyze the user\x27s entry for journaling purposes.\nExtract 3 key themes or emotions.\nSuggest 2 specific journaling prompts.\nUser Input: \"").toList ++
  input_text ++ ("\"\nMood: \"").toList ++ mood ++
  ("\"\nOutput format (JSON):\n\x7b\n  \"themes\": [\"theme1\", \"theme2\", \"theme3\"],\n  \"prompts\": [\"prompt1\", \"prompt2\"]\n\x7d\n").toList

/-- `CRISIS_CHECK_PROMPT.format(input_text=...)`. -/
def CRISIS_CHECK_PROMPT (input_text : Str) : Str :=
  ("\nAnalyze the following input strictly for self-harm, suicide, or immediate danger.\nIf ANY risk is detected, output TRUE and a short reason. Otherwise output FALSE.\nInput: \"").toList ++
  input_text ++
  ("\"\nOutput format (JSON):\n\x7b\n  \"is_crisis\": boolean,\n  \"reason\": \"explanation\"\n\x7d\n").toList

/-- `SUMMARY_PROMPT.format(input_text=..., mood=...)`. -/
def SUMMARY_PROMPT (input_text mood : Str) : Str :=
  ("\nSummarize the user\x27s situation in 7-10 words.\nThen provide 3 short, actionable coping mechanisms:\n1. Breathing/grounding (Immediate).\n2. Small step (Now).\n3. Long-term action.\nUser Input: \"").toList ++
  input_text ++ ("\"\nMood: \"").toList ++ mood ++
  ("\"\nOutput format (JSON):\n\x7b\n  \"summary\": \"short summary\",\n  \"actions\": \x7b\n    \"breathing\": \"description\",\n    \"immediate\": \"description\",\n    \"long_term\": \"description\"\n  \x7d\n\x7d\n").toList

/-! ## History helpers (lines 86–155)

The history file's parsed content is passed in and out explicitly: an
entry is a parsed JSON object (`load_history` returns `[]` for a missing
or unreadable file, which corresponds to the empty starting list). -/

/-- A history entry: a parsed JSON object (string-keyed dict). -/
abbrev HistObj := List (Str × JsonV)

/-- `save_history(entry)`: read the persisted list, insert the entry at
the front, truncate to 20, write back; returns the new list. -/
def save_history (history : List HistObj) (entry : HistObj) : List HistObj :=
  (entry :: history).take 20

/-- `color_map.get(mood, '#6b7280')` from `format_history_html`; a
non-string mood misses every string key. -/
def color_map_get (mood : JsonV) : Str :=
  match mood with
  | .jstr s =>
    if s = "Happy".toList then "#10b981".toList
    else if s = "Neutral".toList then "#6b7280".toList
    else if s = "Sad".toList then "#3b82f6".toList
    else if s = "Depressive".toList then "#1d4ed8".toList
    else if s = "Anxious".toList then "#f59e0b".toList
    else if s = "Overwhelmed".toList then "#d97706".toList
    else if s = "Angry".toList then "#ef4444".toList
    else if s = "Suicidal-Risk".toList then "#b91c1c".toList
    else "#6b7280".toList
  | _ => "#6b7280".toList

/-- One history card of `format_history_html` (the f-string block at lines
120–128); raises `KeyError` when `timestamp` or `summary` is absent. -/
def history_card (item : HistObj) : Except PyErr Str :=
  match pyGet (.jobj item) "mood".toList (.jstr "Neutral".toList) with
  | .error e => .error e
  | .ok mood =>
    let color := color_map_get mood
    match pyGetItemKey (.jobj item) "timestamp".toList with
    | .error e => .error e
    | .ok ts =>
      match pyGetItemKey (.jobj item) "summary".toList with
      | .error e => .error e
      | .ok summ =>
        .ok (("\n        <div class=\x27history-card\x27 style=\x27border-left: 4px solid ").toList ++ color ++
          (";\x27>\n            <div style=\x27display: flex; justify-content: space-between; margin-bottom: 5px;\x27>\n                <span style=\x27font-weight: bold; color: ").toList ++ color ++
          (";\x27>").toList ++ pyStr mood ++
          ("</span>\n                <span style=\x27font-size: 0.8em; color: #9ca3af;\x27>").toList ++ pyStr ts ++
          ("</span>\n            </div>\n            <p style=\x27font-size: 0.9em; color: #4b5563; margin: 0;\x27>").toList ++ pyStr summ ++
          ("</p>\n        </div>\n        ").toList)

/-- The card loop of `format_history_html`. -/
def history_cards : List HistObj → Except PyErr Str
  | [] => .ok []
  | item :: rest =>
    match history_card item with
    | .error e => .error e
    | .ok card =>
      match history_cards rest with
      | .error e => .error e
      | .ok more => .ok (card ++ more)

/-- `format_history_html(history)`. -/
def format_history_html (history : List HistObj) : Except PyErr Str :=
  if history.isEmpty then
    .ok ("<p style=\x27color: #9ca3af; text-align: center; margin-top: 20px;\x27>No entries yet. Start journaling!</p>").toList
  else
    match history_cards history with
    | .error e => .error e
    | .ok cards =>
      .ok (("<div class=\x27history-container\x27>").toList ++ cards ++ ("</div>").toList)

/-- pandas `isna` on a mood cell: the Python `None` a JSON `null` loads to
is the one NA value an entry's `mood` field can hold (a missing key is a
NaN cell, handled separately). -/
def isNullJ : JsonV → Bool
  | .jnull => true
  | _ => false

/-- Python hashability of a `json.loads` value: the lists and dicts it can
produce are unhashable; every other loaded value is hashable. -/
def hashableJ : JsonV → Bool
  | .jarr _ => false
  | .jobj _ => false
  | _ => true

/-- The numeric value (mantissa and decimal exponent) Python `==` uses for
a boolean or a number: `True == 1` and `False == 0`. -/
def pyNumOf : JsonV → Option (Int × Int)
  | .jbool b => some (if b then 1 else 0, 0)
  | .jnum m e => some (m, e)
  | _ => none

/-- Equality by value of two mantissa–exponent numbers. -/
def jnumEqv (m1 e1 m2 e2 : Int) : Bool :=
  if e2 ≤ e1 then m1 * 10 ^ (e1 - e2).toNat = m2 else m2 * 10 ^ (e2 - e1).toNat = m1

/-- Python `==` on the hashable scalar values that can reach the
`value_counts` hashtable (`None` cells are dropped first, and an
unhashable list or dict raises before any comparison): booleans and
numbers compare by numeric value, strings by content. -/
def pyEqScalar (a b : JsonV) : Bool :=
  match pyNumOf a, pyNumOf b with
  | some (m1, e1), some (m2, e2) => jnumEqv m1 e1 m2 e2
  | _, _ =>
    match a, b with
    | .jstr x, .jstr y => x = y
    | _, _ => false

/-- Add one observation to a running count list (first-appearance order). -/
def bumpCount : List (JsonV × Nat) → JsonV → List (JsonV × Nat)
  | [], v => [(v, 1)]
  | (u, n) :: rest, v =>
    if pyEqScalar u v then (u, n + 1) :: rest else (u, n) :: bumpCount rest v

/-- `Series.value_counts()` with its default `dropna=True` over the mood
column: NA cells are dropped first; if a remaining value is unhashable
the pandas hashtable raises `TypeError` (its message abstracted to a
fixed representative); otherwise occurrences are counted per distinct
value, distinctness by Python `==`.  (The rendered figure sorts bars by
count; the chart is modelled as the counts themselves, in
first-appearance order.) -/
def valueCounts (vs : List JsonV) : Except PyErr (List (JsonV × Nat)) :=
  if (vs.filter (fun v => !isNullJ v)).all hashableJ
  then .ok ((vs.filter (fun v => !isNullJ v)).foldl bumpCount [])
  else .error "unhashable type".toList

/-- `plot_mood_trend(history)`: `None` for an empty history and when no
entry carries a `mood` key (the DataFrame then has no `mood` column);
otherwise `df[\x27mood\x27].value_counts()` — entries without a `mood`
key are NaN cells and JSON `null` moods are `None` cells, both dropped by
`value_counts`, whose `TypeError` on an unhashable mood value
propagates — behind the rendered bar chart. -/
def plot_mood_trend (history : List HistObj) : Except PyErr (Option (List (JsonV × Nat))) :=
  if history.isEmpty then .ok none
  else if history.all (fun e => (assocLast e "mood".toList).isNone) then .ok none
  else (valueCounts (history.filterMap (fun e => assocLast e "mood".toList))).map some

/-! ## The pipeline callback (`analyze_process`, lines 186–277) -/

/-- A `gr.update(...)` value for the risk card. -/
structure GrUpdate where
  value : Option Str
  visible : Bool

/-- The 7-tuple returned by `analyze_process`, in output order. -/
structure Output where
  lbl_mood : Str
  txt_therapy : Str
  html_actions : Str
  html_journal : Str
  plot : Option (List (JsonV × Nat))
  history_html : Str
  risk_card : GrUpdate

/-- The terminal state a run ends in (instrumentation naming each `return`
point of `analyze_process`). -/
inductive Terminal : Type where
  | configurationError : Terminal
  | emptyInput : Terminal
  | safetyIntervention : Terminal
  | pipelineError : PyErr → Terminal
  | success : Terminal

/-- Which pipeline step issued a model call (instrumentation). -/
inductive CallTag : Type where
  | moodDetect | crisisCheck | therapy | summary | journaling
deriving DecidableEq

/-- The observable result of one run: the returned tuple, the persisted
history after the run, every individual model call attempted
(step × candidate model, in order), and the terminal state. -/
structure RunResult where
  output : Output
  store : List HistObj
  calls : List (CallTag × Str)
  terminal : Terminal

/-- The fixed crisis-resources message (lines 211–222). -/
def risk_msg : Str :=
  ("\n            <div class=\x27risk-alert\x27>\n                <h3>⚠️ CRITICAL SAFETY WARNING</h3>\n                <p>We detected content indicating high distress. Please prioritize your safety.</p>\n                <p><strong>Immediate Help:</strong></p>\n                <ul>\n                    <li>🇺🇸 USA: 988</li>\n                    <li>🇮🇳 India: 9152987821</li>\n                    <li>Global: <a href=\x27https://findahelpline.com\x27 target=\x27_blank\x27>findahelpline.com</a></li>\n                </ul>\n            </div>\n            ").toList

/-- The tuple returned by the `except` handler (line 277):
`(f"Error: {str(e)}", "", "", "", None, "", gr.update(visible=False))`. -/
def errorOutput (e : PyErr) : Output :=
  ⟨"Error: ".toList ++ e, [], [], [], none, [], ⟨none, false⟩⟩

/-- A run abort: the handler's tuple, the store as it stands, the calls
made so far. -/
def abortRun (e : PyErr) (store : List HistObj) (calls : List (CallTag × Str)) : RunResult :=
  ⟨errorOutput e, store, calls, .pipelineError e⟩

/-- The representative message of a `json.JSONDecodeError`. -/
def jsonErrMsg : PyErr := "Expecting value: line 1 column 1 (char 0)".toList

/-- The `actions_html` f-string block (lines 247–253), as a function of
its three rendered slots. -/
def actions_html_render (b i l : Str) : Str :=
  ("\n        <div class=\x27action-list\x27>\n            <div class=\x27action-item\x27><b>🌬️ Breathe:</b> ").toList ++ b ++
  ("</div>\n            <div class=\x27action-item\x27><b>⚡ Do Now:</b> ").toList ++ i ++
  ("</div>\n            <div class=\x27action-item\x27><b>📅 Plan:</b> ").toList ++ l ++
  ("</div>\n        </div>\n        ").toList

/-- The `journal_html` f-string block (lines 255–264), as a function of
the rendered themes text and the two prompt slots. -/
def journal_html_render (themesTxt s1 s2 : Str) : Str :=
  ("\n        <div class=\x27journal-box\x27>\n            <p><b>Themes:</b> ").toList ++ themesTxt ++
  ("</p>\n            <p><b>Reflect on this:</b></p>\n            <ol>\n                <li>").toList ++ s1 ++
  ("</li>\n                <li>").toList ++ s2 ++
  ("</li>\n            </ol>\n        </div>\n        ").toList

/-- `analyze_process(text_input, audio_input)`.

Parameters beyond the two inputs make the ambient state explicit: the
configured `API_KEY`; the external generation service `svc` (model name →
rendered prompt → response text or raised error); the formatted current
time `now`; and the parsed persisted history `store`. -/
def analyze_process (apiKey : Str) (svc : Str → Str → Except PyErr Str) (now : Str)
    (text_input audio_input : Str) (store : List HistObj) : RunResult :=
  if apiKey = [] then
    ⟨⟨"⚠️ API Key Error.".toList, [], [], [], none, [], ⟨none, false⟩⟩, store, [], .configurationError⟩
  else if text_input = [] ∧ audio_input = [] then
    ⟨⟨"Please share your thoughts first.".toList, [], [], [], none, [], ⟨none, false⟩⟩, store, [],
      .emptyInput⟩
  else
    let final_input := text_input
    -- 1. Mood Detection
    let g1 := generate_with_fallback (fun m => svc m (MOOD_DETECTION_PROMPT final_input))
    let calls1 := g1.1.map (fun m => (CallTag.moodDetect, m))
    match g1.2 with
    | .error e => abortRun e store calls1
    | .ok moodTxt =>
    match parseResponse moodTxt with
    | none => abortRun jsonErrMsg store calls1
    | some mood_data =>
    match pyGet mood_data "mood".toList (.jstr "Unknown".toList) with
    | .error e => abortRun e store calls1
    | .ok mood =>
    match pyGet mood_data "confidence".toList (.jnum 0 0) with
    | .error e => abortRun e store calls1
    | .ok confidence =>
    match pyGet mood_data "risk_flag".toList (.jbool false) with
    | .error e => abortRun e store calls1
    | .ok is_risk =>
    -- 2. Crisis Check
    let crisisStep : Except PyErr JsonV × List (CallTag × Str) :=
      if pyTruthy is_risk then
        (.ok (.jobj [("is_crisis".toList, .jbool true)]), [])
      else
        let g2 := generate_with_fallback (fun m => svc m (CRISIS_CHECK_PROMPT final_input))
        let calls2 := g2.1.map (fun m => (CallTag.crisisCheck, m))
        match g2.2 with
        | .error e => (.error e, calls2)
        | .ok crisisTxt =>
          match parseResponse crisisTxt with
          | none => (.error jsonErrMsg, calls2)
          | some crisis_result => (.ok crisis_result, calls2)
    let calls2 := calls1 ++ crisisStep.2
    match crisisStep.1 with
    | .error e => abortRun e store calls2
    | .ok crisis_result =>
    match pyGetNone crisis_result "is_crisis".toList with
    | .error e => abortRun e store calls2
    | .ok isC =>
    if pyTruthy isC then
      -- Safety Intervention (line 223)
      match format_history_html store with
      | .error e => abortRun e store calls2
      | .ok histHtml =>
        ⟨⟨"Crisis Detected".toList, "Please seek help.".toList, "See safety card.".toList,
           "High Risk".toList, none, histHtml, ⟨some risk_msg, true⟩⟩, store, calls2,
          .safetyIntervention⟩
    else
      -- 3. Therapy Response
      let g3 := generate_with_fallback
        (fun m => svc m (THERAPY_RESPONSE_PROMPT final_input (pyStr mood)))
      let calls3 := calls2 ++ g3.1.map (fun m => (CallTag.therapy, m))
      match g3.2 with
      | .error e => abortRun e store calls3
      | .ok therapy_msg =>
      -- 4. Summary & Actions
      let g4 := generate_with_fallback
        (fun m => svc m (SUMMARY_PROMPT final_input (pyStr mood)))
      let calls4 := calls3 ++ g4.1.map (fun m => (CallTag.summary, m))
      match g4.2 with
      | .error e => abortRun e store calls4
      | .ok summaryTxt =>
      match parseResponse summaryTxt with
      | none => abortRun jsonErrMsg store calls4
      | some summary_data =>
      -- 5. Journaling
      let g5 := generate_with_fallback
        (fun m => svc m (JOURNALING_ANALYSIS_PROMPT final_input (pyStr mood)))
      let calls5 := calls4 ++ g5.1.map (fun m => (CallTag.journaling, m))
      match g5.2 with
      | .error e => abortRun e store calls5
      | .ok journalTxt =>
      match parseResponse journalTxt with
      | none => abortRun jsonErrMsg store calls5
      | some journal_data =>
      -- Save History (lines 237–244)
      match pyGet summary_data "summary".toList (.jstr []) with
      | .error e => abortRun e store calls5
      | .ok summaryVal =>
      let entry : HistObj :=
        [("timestamp".toList, .jstr now),
         ("input".toList, .jstr (final_input.take 50 ++ "...".toList)),
         ("mood".toList, mood),
         ("confidence".toList, confidence),
         ("summary".toList, summaryVal)]
      let history := save_history store entry
      -- Format Outputs (lines 247–264)
      match pyGetItemKey summary_data "actions".toList with
      | .error e => abortRun e history calls5
      | .ok actions =>
      match pyGetNone actions "breathing".toList with
      | .error e => abortRun e history calls5
      | .ok aBr =>
      match pyGetNone actions "immediate".toList with
      | .error e => abortRun e history calls5
      | .ok aIm =>
      match pyGetNone actions "long_term".toList with
      | .error e => abortRun e history calls5
      | .ok aLt =>
      let actions_html := actions_html_render (pyStr aBr) (pyStr aIm) (pyStr aLt)
      match pyGet journal_data "themes".toList (.jarr []) with
      | .error e => abortRun e history calls5
      | .ok themesV =>
      match pyJoin ", ".toList themesV with
      | .error e => abortRun e history calls5
      | .ok themesTxt =>
      match pyGet journal_data "prompts".toList (.jarr [.jstr []]) with
      | .error e => abortRun e history calls5
      | .ok prompts1 =>
      match pyIndex prompts1 0 with
      | .error e => abortRun e history calls5
      | .ok slot1 =>
      match pyGet journal_data "prompts".toList (.jarr []) with
      | .error e => abortRun e history calls5
      | .ok promptsLenV =>
      match pyLenJ promptsLenV with
      | .error e => abortRun e history calls5
      | .ok nPrompts =>
      let slot2step : Except PyErr Str :=
        if 1 < nPrompts then
          match pyGet journal_data "prompts".toList (.jarr [.jstr []]) with
          | .error e => .error e
          | .ok prompts2 =>
            match pyIndex prompts2 1 with
            | .error e => .error e
            | .ok v => .ok (pyStr v)
        else .ok []
      match slot2step with
      | .error e => abortRun e history calls5
      | .ok slot2 =>
      let journal_html := journal_html_render themesTxt (pyStr slot1) slot2
      match plot_mood_trend history with
      | .error e => abortRun e history calls5
      | .ok chart =>
      match format_history_html history with
      | .error e => abortRun e history calls5
      | .ok histHtml =>
        ⟨⟨pyStr mood ++ " (".toList ++ pyStr confidence ++ "%)".toList, therapy_msg,
           actions_html, journal_html, chart, histHtml, ⟨none, false⟩⟩,
          history, calls5, .success⟩

/-! ## Concrete services and responses used by witnesses -/

/-- A service on which every model call fails with a model-not-found
error. -/
def svcW_fail : Str → Str → Except PyErr Str :=
  fun _ _ => .error "404 models/gemini not found".toList

/-- A structured response with `risk_flag` set. -/
def crisisResp : Str :=
  "\x7b\"mood\": \"Sad\", \"confidence\": 90, \"risk_flag\": true\x7d".toList

/-- A service answering every call with `crisisResp`. -/
def svcW_crisis : Str → Str → Except PyErr Str := fun _ _ => .ok crisisResp

/-- A structured response containing every field each pipeline step
extracts, suitable as a constant answer for a fully successful run. -/
def okResp : Str :=
  ("\x7b\"mood\": \"Happy\", \"confidence\": 85, \"risk_flag\": false, \"is_crisis\": false, " ++
   "\"summary\": \"doing fine\", \"actions\": \x7b\"breathing\": \"b\", \"immediate\": \"i\", " ++
   "\"long_term\": \"l\"\x7d, \"themes\": [\"t1\", \"t2\", \"t3\"], \"prompts\": [\"p1\", \"p2\"]\x7d").toList

/-- A service answering every call with `okResp`. -/
def svcW_ok : Str → Str → Except PyErr Str := fun _ _ => .ok okResp

/-- Like `okResp` but with a single journaling prompt and an empty actions
object. -/
def degradedResp : Str :=
  ("\x7b\"mood\": \"Happy\", \"confidence\": 85, \"risk_flag\": false, \"is_crisis\": false, " ++
   "\"summary\": \"doing fine\", \"actions\": \x7b\x7d, \"themes\": [\"t1\"], " ++
   "\"prompts\": [\"p1\"]\x7d").toList

/-- A service answering every call with `degradedResp`. -/
def svcW_degraded : Str → Str → Except PyErr Str := fun _ _ => .ok degradedResp

/-- Like `okResp` but with a present-but-empty `prompts` list. -/
def emptyPromptsResp : Str :=
  ("\x7b\"mood\": \"Happy\", \"confidence\": 85, \"risk_flag\": false, \"is_crisis\": false, " ++
   "\"summary\": \"doing fine\", \"actions\": \x7b\"breathing\": \"b\", \"immediate\": \"i\", " ++
   "\"long_term\": \"l\"\x7d, \"themes\": [\"t1\"], \"prompts\": []\x7d").toList

/-- A service answering every call with `emptyPromptsResp`. -/
def svcW_emptyPrompts : Str → Str → Except PyErr Str := fun _ _ => .ok emptyPromptsResp

/-- A service that fails every therapy-prompt call and answers everything
else with `okResp`. -/
def svcW_therapyFail : Str → Str → Except PyErr Str :=
  fun _ p =>
    if p = THERAPY_RESPONSE_PROMPT "hi".toList "Happy".toList then .error "boom".toList
    else .ok okResp

/-- The service used by the C4 witness: the first two candidates fail, the
third succeeds. -/
def callW : Str → Except PyErr Str :=
  fun m => if m = "gemini-pro".toList then .ok "resp".toList else .error ("fail ".toList ++ m)

/-- The per-candidate error text recorded by `callW`. -/
def errOfW : Str → PyErr := fun m => "fail ".toList ++ m

example : jsonLoads "null".toList = some .jnull := rfl
example : jsonLoads "  [1, 2]  ".toList = some (.jarr [.jnum 1 0, .jnum 2 0]) := rfl
example : jsonLoads "\x7b\"a\": true, \"b\": \"x\"\x7d".toList
    = some (.jobj [("a".toList, .jbool true), ("b".toList, .jstr "x".toList)]) := rfl
example : jsonLoads "-1.5e2".toList = some (.jnum (-15) 1) := rfl
example : jsonLoads "01".toList = none := rfl
example : jsonLoads "[1,]".toList = none := rfl
example : parseResponse (fencedWrap "\x7b\"a\": 1\x7d".toList) = jsonLoads "\x7b\"a\": 1\x7d".toList := rfl

/-! ## Characterization of `pyReplace` -/

theorem pyReplaceGo_nil (pat : Str) (f : Nat) : pyReplaceGo pat f [] = [] := by
  cases f <;> rfl

theorem pyReplaceGo_congr (pat : Str) :
    ∀ f g s, s.length ≤ f → s.length ≤ g → pyReplaceGo pat f s = pyReplaceGo pat g s := by
  intro f
  induction f with
  | zero =>
    intro g s hf _
    have hs : s = [] := List.length_eq_zero.mp (Nat.le_zero.mp hf)
    subst hs
    simp [pyReplaceGo_nil]
  | succ f IH =>
    intro g s hf hg
    cases s with
    | nil => simp [pyReplaceGo_nil]
    | cons c rest =>
      cases g with
      | zero => simp at hg
      | succ g =>
        simp only [pyReplaceGo]
        by_cases h : pat ≠ [] ∧ pat.isPrefixOf (c :: rest) = true
        · simp only [if_pos h]
          have hp : 0 < pat.length := List.length_pos.mpr h.1
          apply IH
          · simp only [List.length_drop, List.length_cons]
            simp only [List.length_cons] at hf
            omega
          · simp only [List.length_drop, List.length_cons]
            simp only [List.length_cons] at hg
            omega
        · simp only [if_neg h]
          simp only [List.length_cons] at hf hg
          rw [IH g rest (by omega) (by omega)]

theorem pyReplace_nil (pat : Str) : pyReplace pat [] = [] := rfl

theorem pyReplace_pos (pat s : Str) (h1 : pat ≠ []) (h2 : pat.isPrefixOf s = true) :
    pyReplace pat s = pyReplace pat (s.drop pat.length) := by
  cases s with
  | nil =>
    cases pat with
    | nil => exact absurd rfl h1
    | cons a as =>
      rw [show (a :: as).isPrefixOf ([] : List Char) = false from rfl] at h2
      exact absurd h2 (by decide)
  | cons c rest =>
    have hcond : pat ≠ [] ∧ pat.isPrefixOf (c :: rest) = true := ⟨h1, h2⟩
    show pyReplaceGo pat (c :: rest).length (c :: rest) = _
    simp only [List.length_cons, pyReplaceGo, if_pos hcond]
    apply pyReplaceGo_congr
    · have hp : 0 < pat.length := List.length_pos.mpr h1
      simp only [List.length_drop, List.length_cons]
      omega
    · exact Nat.le_refl _

theorem pyReplace_neg (pat : Str) (c : Char) (rest : Str)
    (h : ¬(pat ≠ [] ∧ pat.isPrefixOf (c :: rest) = true)) :
    pyReplace pat (c :: rest) = c :: pyReplace pat rest := by
  show pyReplaceGo pat (c :: rest).length (c :: rest) = _
  simp only [List.length_cons, pyReplaceGo, if_neg h]
  rfl

theorem pyReplace_cons_ne (pat : Str) (hpat : pat.head? = some tickC) (c : Char)
    (hc : c ≠ tickC) (rest : Str) :
    pyReplace pat (c :: rest) = c :: pyReplace pat rest := by
  apply pyReplace_neg
  rintro ⟨-, h2⟩
  cases pat with
  | nil => simp at hpat
  | cons a as =>
    have ha : a = tickC := by simpa using hpat
    have h2cons : (a == c && as.isPrefixOf rest) = true := h2
    simp only [Bool.and_eq_true, beq_iff_eq] at h2cons
    exact hc (by rw [← h2cons.1, ha])

theorem pyReplace_span (pat : Str) (hpat : pat.head? = some tickC) (a : Str)
    (ha : ∀ x ∈ a, x ≠ tickC) (s : Str) :
    pyReplace pat (a ++ s) = a ++ pyReplace pat s := by
  induction a with
  | nil => rfl
  | cons c cs IH =>
    have hc : c ≠ tickC := ha c (by simp)
    rw [List.cons_append, pyReplace_cons_ne pat hpat c hc, IH (fun x hx => ha x (by simp [hx]))]
    simp

theorem pyReplace_self_prefix (pat s : Str) (h : pat ≠ []) :
    pyReplace pat (pat ++ s) = pyReplace pat s := by
  rw [pyReplace_pos pat (pat ++ s) h
    (List.isPrefixOf_iff_prefix.mpr (List.prefix_append pat s))]
  rw [List.drop_left]

/-- `"```json"` does not occur as a prefix of `s ++ "```"` unless it is a
prefix of `s` already: the marker's tail letters never come from the
appended backticks. -/
theorem fj_prefix_of_append_ticks (s : Str)
    (h : fenceMarkJson.isPrefixOf (s ++ fenceMark) = true) :
    fenceMarkJson.isPrefixOf s = true := by
  have hp : fenceMarkJson <+: s ++ fenceMark := List.isPrefixOf_iff_prefix.mp h
  rcases hp with ⟨t, ht⟩
  have hlen : s.length + 3 = 7 + t.length := by
    have hl := congrArg List.length ht
    simp only [List.length_append] at hl
    rw [show fenceMark.length = 3 from rfl, show fenceMarkJson.length = 7 from rfl] at hl
    omega
  by_cases hs : 7 ≤ s.length
  · apply List.isPrefixOf_iff_prefix.mpr
    have htake : fenceMarkJson = (s ++ fenceMark).take 7 :=
      List.prefix_iff_eq_take.mp ⟨t, ht⟩
    have htake2 : (s ++ fenceMark).take 7 = s.take 7 := by
      rw [List.take_append_eq_append_take]
      have h7 : 7 - s.length = 0 := by omega
      simp [h7]
    rw [htake, htake2]
    exact List.take_prefix 7 s
  · exfalso
    have hgt : (s ++ fenceMark)[s.length]? = (fenceMarkJson ++ t)[s.length]? := by rw [ht]
    have hL : (s ++ fenceMark)[s.length]? = some tickC := by
      rw [List.getElem?_append_right (Nat.le_refl _)]
      simp [fenceMark]
    have hR : (fenceMarkJson ++ t)[s.length]? = fenceMarkJson[s.length]? :=
      List.getElem?_append_left (by simp [fenceMarkJson]; omega)
    have hk : s.length = 4 ∨ s.length = 5 ∨ s.length = 6 := by omega
    rcases hk with hk | hk | hk <;>
      (rw [hk] at hgt hL hR; rw [hL, hR] at hgt; revert hgt; decide)

/-- Removing `"```json"` commutes with a trailing `"```"`: no occurrence of
the long marker can straddle the appended short one. -/
theorem pyReplace_fj_append_aux :
    ∀ n s, List.length s ≤ n →
      pyReplace fenceMarkJson (s ++ fenceMark) = pyReplace fenceMarkJson s ++ fenceMark := by
  intro n
  induction n with
  | zero =>
    intro s hs
    have hnil : s = [] := List.length_eq_zero.mp (Nat.le_zero.mp hs)
    subst hnil
    decide
  | succ n IH =>
    intro s hs
    cases s with
    | nil => decide
    | cons c rest =>
      by_cases h1 : fenceMarkJson.isPrefixOf (c :: rest) = true
      · have h1' : fenceMarkJson.isPrefixOf ((c :: rest) ++ fenceMark) = true := by
          apply List.isPrefixOf_iff_prefix.mpr
          exact (List.isPrefixOf_iff_prefix.mp h1).trans (List.prefix_append _ _)
        rw [pyReplace_pos _ _ (by decide) h1', pyReplace_pos _ _ (by decide) h1]
        have hlen7 : 7 ≤ (c :: rest).length := by
          have hl := (List.isPrefixOf_iff_prefix.mp h1).length_le
          rw [show fenceMarkJson.length = 7 from rfl] at hl
          exact hl
        rw [show fenceMarkJson.length = 7 from rfl,
          List.drop_append_of_le_length hlen7]
        apply IH
        simp only [List.length_drop, List.length_cons]
        simp only [List.length_cons] at hs
        omega
      · have h1'' : ¬ fenceMarkJson.isPrefixOf ((c :: rest) ++ fenceMark) = true := by
          intro hx
          exact h1 (fj_prefix_of_append_ticks _ hx)
        have e1 : pyReplace fenceMarkJson (c :: (rest ++ fenceMark))
            = c :: pyReplace fenceMarkJson (rest ++ fenceMark) :=
          pyReplace_neg _ _ _ (fun hh => h1'' hh.2)
        have e2 : pyReplace fenceMarkJson (c :: rest) = c :: pyReplace fenceMarkJson rest :=
          pyReplace_neg _ _ _ (fun hh => h1 hh.2)
        rw [show ((c :: rest) ++ fenceMark) = c :: (rest ++ fenceMark) from rfl, e1, e2,
          IH rest (by simp only [List.length_cons] at hs; omega)]
        simp

/-- Removing `"```"` absorbs a trailing `"```"`: appending the marker to
any string leaves the scan's result unchanged (a trailing backtick run of
length `k` and one of length `k + 3` leave the same residue). -/
theorem pyReplace_fm_append_aux :
    ∀ n s, List.length s ≤ n →
      pyReplace fenceMark (s ++ fenceMark) = pyReplace fenceMark s := by
  intro n
  induction n with
  | zero =>
    intro s hs
    have hnil : s = [] := List.length_eq_zero.mp (Nat.le_zero.mp hs)
    subst hnil
    decide
  | succ n IH =>
    intro s hs
    cases s with
    | nil => decide
    | cons c rest =>
      by_cases h1 : fenceMark.isPrefixOf (c :: rest) = true
      · have h1' : fenceMark.isPrefixOf ((c :: rest) ++ fenceMark) = true := by
          apply List.isPrefixOf_iff_prefix.mpr
          exact (List.isPrefixOf_iff_prefix.mp h1).trans (List.prefix_append _ _)
        rw [pyReplace_pos _ _ (by decide) h1', pyReplace_pos _ _ (by decide) h1]
        have hlen3 : 3 ≤ (c :: rest).length := by
          have hl := (List.isPrefixOf_iff_prefix.mp h1).length_le
          rw [show fenceMark.length = 3 from rfl] at hl
          exact hl
        rw [show fenceMark.length = 3 from rfl, List.drop_append_of_le_length hlen3]
        apply IH
        simp only [List.length_drop, List.length_cons]
        simp only [List.length_cons] at hs
        omega
      · by_cases h2 : fenceMark.isPrefixOf ((c :: rest) ++ fenceMark) = true
        · rcases List.isPrefixOf_iff_prefix.mp h2 with ⟨t, ht⟩
          have hshort : (c :: rest).length ≤ 2 := by
            by_contra hlong
            apply h1
            apply List.isPrefixOf_iff_prefix.mpr
            have htake : fenceMark = ((c :: rest) ++ fenceMark).take 3 :=
              List.prefix_iff_eq_take.mp ⟨t, ht⟩
            have htake2 : ((c :: rest) ++ fenceMark).take 3 = (c :: rest).take 3 := by
              rw [List.take_append_eq_append_take]
              have h30 : 3 - (c :: rest).length = 0 := by
                simp only [List.length_cons] at hlong ⊢
                omega
              rw [h30, List.take_zero, List.append_nil]
            rw [htake, htake2]
            exact List.take_prefix 3 (c :: rest)
          have hself : c :: rest = fenceMark.take (c :: rest).length := by
            have htk := congrArg (List.take (c :: rest).length) ht
            rw [List.take_append_eq_append_take, List.take_append_eq_append_take] at htk
            have hA : (c :: rest).length - fenceMark.length = 0 := by
              rw [show fenceMark.length = 3 from rfl]
              simp only [List.length_cons]
              simp only [List.length_cons] at hshort
              omega
            rw [hA, Nat.sub_self, List.take_zero, List.take_zero, List.append_nil,
              List.append_nil, List.take_length] at htk
            exact htk.symm
          have hk : (c :: rest).length = 1 ∨ (c :: rest).length = 2 := by
            simp only [List.length_cons] at hshort ⊢
            omega
          rcases hk with hk | hk
          · rw [hk] at hself
            rw [show fenceMark.take 1 = [tickC] from rfl] at hself
            rw [hself]
            decide
          · rw [hk] at hself
            rw [show fenceMark.take 2 = [tickC, tickC] from rfl] at hself
            rw [hself]
            decide
        · have e1 : pyReplace fenceMark (c :: (rest ++ fenceMark))
              = c :: pyReplace fenceMark (rest ++ fenceMark) :=
            pyReplace_neg _ _ _ (fun hh => h2 hh.2)
          have e2 : pyReplace fenceMark (c :: rest) = c :: pyReplace fenceMark rest :=
            pyReplace_neg _ _ _ (fun hh => h1 hh.2)
          rw [show ((c :: rest) ++ fenceMark) = c :: (rest ++ fenceMark) from rfl, e1, e2,
            IH rest (by simp only [List.length_cons] at hs; omega)]

/-- Stripping fences is blind to one surrounding fence pair: the marker
removal scan erases the added `"```json"` prefix and `"```"` suffix and
touches nothing else. -/
theorem stripFences_fencedWrap (s : Str) : stripFences (fencedWrap s) = stripFences s := by
  unfold stripFences fencedWrap
  rw [List.append_assoc, pyReplace_self_prefix _ _ (by decide),
    pyReplace_fj_append_aux (s.length) s (Nat.le_refl _),
    pyReplace_fm_append_aux (pyReplace fenceMarkJson s).length _ (Nat.le_refl _)]

/-! ## Fence stripping preserves parseability: helper lemmas

Both fence markers start with a backtick and consist of printable,
non-quote, non-backslash characters; in any string `json.loads` accepts,
their occurrences therefore sit strictly inside string literal bodies, and
removing them leaves a parseable string.  The lemmas below formalize this
for an abstract pattern `pat` subject to those two character conditions. -/

theorem ws_ne_tick (c : Char) (h : isWsC c = true) : c ≠ tickC := by
  intro hc
  subst hc
  exact absurd h (by decide)

theorem numSpan_ne_tick (c : Char) (h : numSpanChar c = true) : c ≠ tickC := by
  intro hc
  subst hc
  exact absurd h (by decide)

theorem hexVal_ne_tick (c : Char) (a : Nat) (h : hexVal c = some a) : c ≠ tickC := by
  intro hc
  subst hc
  have hnone : hexVal tickC = none := by decide
  rw [hnone] at h
  exact Option.noConfusion h

theorem skipWs_nil : skipWs [] = [] := rfl

theorem skipWs_cons_ws (c : Char) (rest : Str) (h : isWsC c = true) :
    skipWs (c :: rest) = skipWs rest := by
  simp [skipWs, List.dropWhile, h]

theorem skipWs_cons_nws (c : Char) (rest : Str) (h : ¬ isWsC c = true) :
    skipWs (c :: rest) = c :: rest := by
  simp [skipWs, List.dropWhile, h]

/-- Removing pattern occurrences commutes with skipping leading
whitespace, provided the first non-whitespace character (if any) is not a
backtick. -/
theorem skipWs_pyReplace (pat : Str) (hp1 : pat.head? = some tickC) :
    ∀ s, (skipWs s = [] ∨ ∃ c t2, skipWs s = c :: t2 ∧ c ≠ tickC) →
      skipWs (pyReplace pat s) = pyReplace pat (skipWs s) := by
  intro s
  induction s with
  | nil => intro _; rfl
  | cons c rest IH =>
    intro hsafe
    by_cases hw : isWsC c = true
    · have hcne : c ≠ tickC := ws_ne_tick c hw
      rw [pyReplace_cons_ne pat hp1 c hcne, skipWs_cons_ws c _ hw, skipWs_cons_ws c rest hw]
      rw [skipWs_cons_ws c rest hw] at hsafe
      exact IH hsafe
    · have e2 : skipWs (c :: rest) = c :: rest := skipWs_cons_nws c rest hw
      have hcne : c ≠ tickC := by
        rcases hsafe with hx | ⟨c2, t2, hx, hne⟩
        · rw [e2] at hx; exact absurd hx (by simp)
        · rw [e2] at hx
          have : c2 = c := by injection hx with h1 _; exact h1.symm
          rw [← this]; exact hne
      rw [pyReplace_cons_ne pat hp1 c hcne, skipWs_cons_nws c _ hw, e2]
      exact (pyReplace_cons_ne pat hp1 c hcne rest).symm

set_option maxHeartbeats 2000000 in
theorem psb_plain_cons (c : Char) (h1 : ¬ c = '"') (h2 : ¬ c = '\\')
    (h3 : ¬ c.toNat < 32) (rest : Str) :
    parseStringBody (c :: rest) = (parseStringBody rest).map (fun p => (c :: p.1, p.2)) := by
  conv_lhs => rw [parseStringBody.eq_def]
  simp only [if_neg h1, if_neg h2, if_neg h3]

/-- A block of plain (unescaped, printable) characters passes through the
string-body parser as literal content. -/
theorem psb_append_plain (a : Str)
    (ha : ∀ c ∈ a, ¬ c = '"' ∧ ¬ c = '\\' ∧ ¬ c.toNat < 32) (x : Str) :
    parseStringBody (a ++ x) = (parseStringBody x).map (fun p => (a ++ p.1, p.2)) := by
  induction a with
  | nil =>
    cases hx : parseStringBody x <;> simp [hx]
  | cons c cs IH =>
    obtain ⟨h1, h2, h3⟩ := ha c (by simp)
    rw [List.cons_append, psb_plain_cons c h1 h2 h3,
      IH (fun y hy => ha y (by simp [hy]))]
    cases hx : parseStringBody x <;> simp [hx]

theorem takeWhile_all_append (p : Char → Bool) (a : Str) (c : Char) (y : Str)
    (ha : ∀ x ∈ a, p x = true) (hc : p c = false) :
    (a ++ c :: y).takeWhile p = a ∧ (a ++ c :: y).dropWhile p = c :: y := by
  induction a with
  | nil => simp [List.takeWhile, List.dropWhile, hc]
  | cons d ds IH =>
    have hd : p d = true := ha d (by simp)
    have hrest := IH (fun x hx => ha x (by simp [hx]))
    constructor
    · rw [List.cons_append, List.takeWhile_cons, if_pos hd, hrest.1]
    · rw [List.cons_append, List.dropWhile_cons, if_pos hd, hrest.2]

theorem takeWhile_all (p : Char → Bool) (a : Str) (ha : ∀ x ∈ a, p x = true) :
    a.takeWhile p = a ∧ a.dropWhile p = [] := by
  induction a with
  | nil => simp
  | cons d ds IH =>
    have hd : p d = true := ha d (by simp)
    have hrest := IH (fun x hx => ha x (by simp [hx]))
    constructor
    · rw [List.takeWhile_cons, if_pos hd, hrest.1]
    · rw [List.dropWhile_cons, if_pos hd, hrest.2]

theorem dropWhile_head_false (p : Char → Bool) :
    ∀ (l : Str) (c : Char) (t2 : Str), l.dropWhile p = c :: t2 → p c = false := by
  intro l
  induction l with
  | nil => intro c t2 h; simp at h
  | cons d ds IH =>
    intro c t2 h
    by_cases hd : p d = true
    · rw [List.dropWhile_cons, if_pos hd] at h
      exact IH c t2 h
    · rw [List.dropWhile_cons, if_neg hd] at h
      cases h
      cases hpd : p d
      · rfl
      · exact absurd hpd hd

theorem escDecode_ne_tick (c d : Char) (h : escDecode c = some d) : c ≠ tickC := by
  intro hc
  subst hc
  have hnone : escDecode tickC = none := by decide
  rw [hnone] at h
  exact Option.noConfusion h

/-- Unfolding of the string-body parser at a closing quote. -/
theorem psb_quote_eq (x : Str) : parseStringBody ('"' :: x) = some ([], x) := by
  rw [parseStringBody.eq_def]
  simp only [if_pos rfl, if_true]

/-- Unfolding of the string-body parser at a `\uXXXX` escape. -/
theorem psb_esc_u_eq (h1 h2 h3 h4 : Char) (t : Str) :
    parseStringBody ('\\' :: 'u' :: h1 :: h2 :: h3 :: h4 :: t)
      = (match hexVal h1, hexVal h2, hexVal h3, hexVal h4 with
         | some a, some b, some x, some d =>
           (parseStringBody t).map
             (fun p => (Char.ofNat (((a * 16 + b) * 16 + x) * 16 + d) :: p.1, p.2))
         | _, _, _, _ => none) := rfl

set_option maxHeartbeats 2000000 in
/-- Unfolding of the string-body parser at a one-character escape. -/
theorem psb_backslash_eq (c2 : Char) (x : Str) (hu : ¬ c2 = 'u') :
    parseStringBody ('\\' :: c2 :: x)
      = (match escDecode c2 with
         | some d => (parseStringBody x).map (fun p => (d :: p.1, p.2))
         | none => none) := by
  conv_lhs => rw [parseStringBody.eq_def]
  simp only [if_neg (show ¬ ('\\' = '"') by decide), if_pos rfl, if_neg hu, if_true]

set_option maxHeartbeats 2000000 in
/-- Removing fence-marker occurrences from a parsed string-literal body
keeps it a parseable body: occurrences start at a backtick, which is a
plain body character, and consist of plain characters only. -/
theorem psb_pyReplace (pat : Str) (hp1 : pat.head? = some tickC) (hpne : pat ≠ [])
    (hp2 : ∀ c ∈ pat, ¬ c = '"' ∧ ¬ c = '\\' ∧ ¬ c.toNat < 32) :
    ∀ n s b r, s.length ≤ n → parseStringBody s = some (b, r) →
      ∃ b2, parseStringBody (pyReplace pat s) = some (b2, pyReplace pat r) := by
  intro n
  induction n with
  | zero =>
    intro s b r hlen h
    have hs : s = [] := List.length_eq_zero.mp (Nat.le_zero.mp hlen)
    subst hs
    exact absurd h (by simp [parseStringBody])
  | succ n IH =>
    intro s b r hlen h
    cases s with
    | nil => exact absurd h (by simp [parseStringBody])
    | cons c rest =>
      simp only [List.length_cons] at hlen
      by_cases hq : c = '"'
      · subst hq
        rw [psb_quote_eq] at h
        cases h
        rw [pyReplace_cons_ne pat hp1 _ (by decide)]
        exact ⟨[], psb_quote_eq _⟩
      · by_cases hbs : c = '\\'
        · subst hbs
          rcases rest with _ | ⟨c2, rest2⟩
          · rw [show parseStringBody ['\\'] = none from rfl] at h
            exact Option.noConfusion h
          · simp only [List.length_cons] at hlen
            by_cases hc2u : c2 = 'u'
            · subst hc2u
              rcases rest2 with _ | ⟨a1, _ | ⟨a2, _ | ⟨a3, _ | ⟨a4, t5⟩⟩⟩⟩
              · rw [show parseStringBody ['\\', 'u'] = none from rfl] at h
                exact Option.noConfusion h
              · rw [show parseStringBody ['\\', 'u', a1] = none from rfl] at h
                exact Option.noConfusion h
              · rw [show parseStringBody ['\\', 'u', a1, a2] = none from rfl] at h
                exact Option.noConfusion h
              · rw [show parseStringBody ['\\', 'u', a1, a2, a3] = none from rfl] at h
                exact Option.noConfusion h
              · rw [psb_esc_u_eq] at h
                rcases hh1 : hexVal a1 with _ | v1 <;> rw [hh1] at h <;>
                  rcases hh2 : hexVal a2 with _ | v2 <;> rw [hh2] at h <;>
                  rcases hh3 : hexVal a3 with _ | v3 <;> rw [hh3] at h <;>
                  rcases hh4 : hexVal a4 with _ | v4 <;> rw [hh4] at h
                any_goals exact Option.noConfusion h
                rcases Option.map_eq_some'.mp h with ⟨⟨b6, r6⟩, hsub, hfx⟩
                injection hfx with hb hr
                subst hb
                subst hr
                simp only [List.length_cons] at hlen
                obtain ⟨b2, hb2⟩ := IH t5 b6 r6 (by omega) hsub
                rw [pyReplace_cons_ne pat hp1 _ (by decide),
                  pyReplace_cons_ne pat hp1 _ (by decide),
                  pyReplace_cons_ne pat hp1 _ (hexVal_ne_tick _ _ hh1),
                  pyReplace_cons_ne pat hp1 _ (hexVal_ne_tick _ _ hh2),
                  pyReplace_cons_ne pat hp1 _ (hexVal_ne_tick _ _ hh3),
                  pyReplace_cons_ne pat hp1 _ (hexVal_ne_tick _ _ hh4),
                  psb_esc_u_eq, hh1, hh2, hh3, hh4, hb2]
                exact ⟨_, rfl⟩
            · rw [psb_backslash_eq c2 rest2 hc2u] at h
              rcases hesc : escDecode c2 with _ | d5
              · rw [hesc] at h
                exact Option.noConfusion h
              · rw [hesc] at h
                rcases Option.map_eq_some'.mp h with ⟨⟨b6, r6⟩, hsub, hfx⟩
                injection hfx with hb hr
                subst hb
                subst hr
                obtain ⟨b2, hb2⟩ := IH rest2 b6 r6 (by omega) hsub
                rw [pyReplace_cons_ne pat hp1 _ (by decide),
                  pyReplace_cons_ne pat hp1 _ (escDecode_ne_tick _ _ hesc),
                  psb_backslash_eq c2 _ hc2u, hesc, hb2]
                exact ⟨_, rfl⟩
        · by_cases hctl : c.toNat < 32
          · have hnone : parseStringBody (c :: rest) = none := by
              rw [parseStringBody.eq_def]
              simp only [if_neg hq, if_neg hbs, if_pos hctl]
            rw [hnone] at h
            exact Option.noConfusion h
          · rw [psb_plain_cons c hq hbs hctl] at h
            rcases Option.map_eq_some'.mp h with ⟨⟨b6, r6⟩, hsub, hfx⟩
            injection hfx with hb hr
            subst hb
            subst hr
            by_cases hct : c = tickC
            · subst hct
              by_cases hpre : pat.isPrefixOf (tickC :: rest) = true
              · obtain ⟨t4, ht4⟩ := List.isPrefixOf_iff_prefix.mp hpre
                have hdrop : (tickC :: rest).drop pat.length = t4 := by
                  rw [← ht4, List.drop_left]
                have hspan : parseStringBody (tickC :: rest)
                    = (parseStringBody t4).map (fun p => (pat ++ p.1, p.2)) := by
                  rw [← ht4]
                  exact psb_append_plain pat hp2 t4
                have horig : parseStringBody (tickC :: rest) = some (tickC :: b6, r6) := by
                  rw [psb_plain_cons _ (by decide) (by decide) (by decide), hsub]
                  rfl
                rw [horig] at hspan
                rcases Option.map_eq_some'.mp hspan.symm with ⟨⟨b7, r7⟩, hsub7, hfx7⟩
                injection hfx7 with hb7 hr7
                have hlen4 : t4.length ≤ n := by
                  have hl := congrArg List.length ht4
                  simp only [List.length_append, List.length_cons] at hl
                  have hpl : 0 < pat.length := List.length_pos.mpr hpne
                  omega
                obtain ⟨b2, hb2⟩ := IH t4 b7 r7 hlen4 hsub7
                rw [pyReplace_pos pat _ hpne hpre, hdrop, hb2, ← hr7]
                exact ⟨b2, rfl⟩
              · have hrepl : pyReplace pat (tickC :: rest) = tickC :: pyReplace pat rest :=
                  pyReplace_neg pat _ _ (fun hh => hpre hh.2)
                obtain ⟨b2, hb2⟩ := IH rest b6 r6 (by omega) hsub
                rw [hrepl, psb_plain_cons _ (by decide) (by decide) (by decide), hb2]
                exact ⟨_, rfl⟩
            · obtain ⟨b2, hb2⟩ := IH rest b6 r6 (by omega) hsub
              rw [pyReplace_cons_ne pat hp1 _ hct, psb_plain_cons _ hq hbs hctl, hb2]
              exact ⟨_, rfl⟩

/-! ## Fence stripping preserves parseability (C9)

Dispatch lemmas reducing each parser at a known head, inversion lemmas on
the shape of accepted input, and the main preservation induction. -/

theorem isPrefixOf_cons_ne (a : Char) (as : Str) (b : Char) (bs : Str)
    (h : (a == b) = false) : (a :: as).isPrefixOf (b :: bs) = false := by
  simp [List.isPrefixOf, h]

theorem pv_eq_true (f : Nat) (s : Str) (h : ("true".toList).isPrefixOf (skipWs s) = true) :
    parseVal (f + 1) s = some (.jbool true, (skipWs s).drop 4) := by
  simp only [parseVal, if_pos h]

theorem pv_eq_false (f : Nat) (s : Str)
    (h1 : ¬ ("true".toList).isPrefixOf (skipWs s) = true)
    (h2 : ("false".toList).isPrefixOf (skipWs s) = true) :
    parseVal (f + 1) s = some (.jbool false, (skipWs s).drop 5) := by
  simp only [parseVal, if_neg h1, if_pos h2]

theorem pv_eq_null (f : Nat) (s : Str)
    (h1 : ¬ ("true".toList).isPrefixOf (skipWs s) = true)
    (h2 : ¬ ("false".toList).isPrefixOf (skipWs s) = true)
    (h3 : ("null".toList).isPrefixOf (skipWs s) = true) :
    parseVal (f + 1) s = some (.jnull, (skipWs s).drop 4) := by
  simp only [parseVal, if_neg h1, if_neg h2, if_pos h3]

theorem pv_eq_str (f : Nat) (s t : Str) (h : skipWs s = '"' :: t) :
    parseVal (f + 1) s = (parseStringBody t).map (fun p => (.jstr p.1, p.2)) := by
  simp only [parseVal, h]
  rw [if_neg (by rw [show ("true".toList) = 't' :: "rue".toList from rfl,
        isPrefixOf_cons_ne _ _ _ _ (by decide)]; exact Bool.false_ne_true),
    if_neg (by rw [show ("false".toList) = 'f' :: "alse".toList from rfl,
        isPrefixOf_cons_ne _ _ _ _ (by decide)]; exact Bool.false_ne_true),
    if_neg (by rw [show ("null".toList) = 'n' :: "ull".toList from rfl,
        isPrefixOf_cons_ne _ _ _ _ (by decide)]; exact Bool.false_ne_true)]

theorem pv_eq_obj (f : Nat) (s t : Str) (h : skipWs s = '{' :: t) :
    parseVal (f + 1) s
      = (match skipWs t with
         | '}' :: r => some (.jobj [], r)
         | _ => (parseMembers f t).map (fun p => (.jobj p.1, p.2))) := by
  simp only [parseVal, h]
  rw [if_neg (by rw [show ("true".toList) = 't' :: "rue".toList from rfl,
        isPrefixOf_cons_ne _ _ _ _ (by decide)]; exact Bool.false_ne_true),
    if_neg (by rw [show ("false".toList) = 'f' :: "alse".toList from rfl,
        isPrefixOf_cons_ne _ _ _ _ (by decide)]; exact Bool.false_ne_true),
    if_neg (by rw [show ("null".toList) = 'n' :: "ull".toList from rfl,
        isPrefixOf_cons_ne _ _ _ _ (by decide)]; exact Bool.false_ne_true)]

theorem pv_eq_arr (f : Nat) (s t : Str) (h : skipWs s = '[' :: t) :
    parseVal (f + 1) s
      = (match skipWs t with
         | ']' :: r => some (.jarr [], r)
         | _ => (parseElems f t).map (fun p => (.jarr p.1, p.2))) := by
  simp only [parseVal, h]
  rw [if_neg (by rw [show ("true".toList) = 't' :: "rue".toList from rfl,
        isPrefixOf_cons_ne _ _ _ _ (by decide)]; exact Bool.false_ne_true),
    if_neg (by rw [show ("false".toList) = 'f' :: "alse".toList from rfl,
        isPrefixOf_cons_ne _ _ _ _ (by decide)]; exact Bool.false_ne_true),
    if_neg (by rw [show ("null".toList) = 'n' :: "ull".toList from rfl,
        isPrefixOf_cons_ne _ _ _ _ (by decide)]; exact Bool.false_ne_true)]

theorem pv_eq_nil (f : Nat) (s : Str) (h : skipWs s = []) :
    parseVal (f + 1) s = none := by
  simp only [parseVal, h]
  rw [if_neg (by rw [show ("true".toList) = 't' :: "rue".toList from rfl]; simp [List.isPrefixOf]),
    if_neg (by rw [show ("false".toList) = 'f' :: "alse".toList from rfl]; simp [List.isPrefixOf]),
    if_neg (by rw [show ("null".toList) = 'n' :: "ull".toList from rfl]; simp [List.isPrefixOf])]
  rw [show parseNumber [] = none from rfl]
  rfl

theorem pv_eq_num (f : Nat) (s : Str) (c : Char) (t : Str) (h : skipWs s = c :: t)
    (h1 : ¬ ("true".toList).isPrefixOf (skipWs s) = true)
    (h2 : ¬ ("false".toList).isPrefixOf (skipWs s) = true)
    (h3 : ¬ ("null".toList).isPrefixOf (skipWs s) = true)
    (h4 : ¬ c = '"') (h5 : ¬ c = '{') (h6 : ¬ c = '[') :
    parseVal (f + 1) s = (parseNumber (c :: t)).map (fun p => (.jnum p.1.1 p.1.2, p.2)) := by
  rw [h] at h1 h2 h3
  simp only [parseVal, h]
  rw [if_neg h1, if_neg h2, if_neg h3]
  split
  · rename_i heq
    injection heq with hc ht
    exact absurd hc h4
  · rename_i heq
    injection heq with hc ht
    exact absurd hc h5
  · rename_i heq
    injection heq with hc ht
    exact absurd hc h6
  · rfl

theorem pv_eval_obj_empty (f : Nat) (s t r0 : Str) (h : skipWs s = '{' :: t)
    (h2 : skipWs t = '}' :: r0) : parseVal (f + 1) s = some (.jobj [], r0) := by
  rw [pv_eq_obj f s t h]
  simp only [h2]

theorem pv_eval_obj_mem (f : Nat) (s t : Str) (c : Char) (t2 : Str) (h : skipWs s = '{' :: t)
    (h2 : skipWs t = c :: t2) (hc : ¬ c = '}') :
    parseVal (f + 1) s = (parseMembers f t).map (fun p => (.jobj p.1, p.2)) := by
  rw [pv_eq_obj f s t h]
  simp only [h2]
  split
  · rename_i r heq
    injection heq with hc2 _
    exact absurd hc2 hc
  · rfl

theorem pv_eval_arr_elem (f : Nat) (s t : Str) (c : Char) (t2 : Str) (h : skipWs s = '[' :: t)
    (h2 : skipWs t = c :: t2) (hc : ¬ c = ']') :
    parseVal (f + 1) s = (parseElems f t).map (fun p => (.jarr p.1, p.2)) := by
  rw [pv_eq_arr f s t h]
  simp only [h2]
  split
  · rename_i r heq
    injection heq with hc2 _
    exact absurd hc2 hc
  · rfl

theorem pv_eval_arr_empty (f : Nat) (s t r0 : Str) (h : skipWs s = '[' :: t)
    (h2 : skipWs t = ']' :: r0) : parseVal (f + 1) s = some (.jarr [], r0) := by
  rw [pv_eq_arr f s t h]
  simp only [h2]

theorem pe_none (f : Nat) (s : Str) (hv : parseVal f s = none) :
    parseElems (f + 1) s = none := by
  simp only [parseElems, hv]

theorem pe_eq (f : Nat) (s : Str) (v : JsonV) (r : Str) (hv : parseVal f s = some (v, r)) :
    parseElems (f + 1) s
      = (match skipWs r with
         | ',' :: t => (parseElems f t).map (fun p => (v :: p.1, p.2))
         | ']' :: t => some ([v], t)
         | _ => none) := by
  simp only [parseElems, hv]

theorem pe_eval_comma (f : Nat) (s : Str) (v : JsonV) (r0 t : Str)
    (hv : parseVal f s = some (v, r0)) (h2 : skipWs r0 = ',' :: t) :
    parseElems (f + 1) s = (parseElems f t).map (fun p => (v :: p.1, p.2)) := by
  simp only [parseElems, hv, h2]

theorem pe_eval_close (f : Nat) (s : Str) (v : JsonV) (r0 t : Str)
    (hv : parseVal f s = some (v, r0)) (h2 : skipWs r0 = ']' :: t) :
    parseElems (f + 1) s = some ([v], t) := by
  simp only [parseElems, hv, h2]

theorem pm_eq_some (f : Nat) (s t : Str) (k : Str) (r1 : Str) (h : skipWs s = '"' :: t)
    (hb : parseStringBody t = some (k, r1)) :
    parseMembers (f + 1) s
      = (match skipWs r1 with
         | ':' :: r2 =>
           (match parseVal f r2 with
            | none => none
            | some (v, r3) =>
              match skipWs r3 with
              | ',' :: t2 => (parseMembers f t2).map (fun p => ((k, v) :: p.1, p.2))
              | '}' :: t2 => some ([(k, v)], t2)
              | _ => none)
         | _ => none) := by
  simp only [parseMembers, h, hb]

theorem pm_eval_comma (f : Nat) (s t k r1 r2 : Str) (v : JsonV) (r3 t2 : Str)
    (h1 : skipWs s = '"' :: t) (h2 : parseStringBody t = some (k, r1))
    (h3 : skipWs r1 = ':' :: r2) (h4 : parseVal f r2 = some (v, r3))
    (h5 : skipWs r3 = ',' :: t2) :
    parseMembers (f + 1) s = (parseMembers f t2).map (fun p => ((k, v) :: p.1, p.2)) := by
  simp only [parseMembers, h1, h2, h3, h4, h5]

theorem pm_eval_close (f : Nat) (s t k r1 r2 : Str) (v : JsonV) (r3 t2 : Str)
    (h1 : skipWs s = '"' :: t) (h2 : parseStringBody t = some (k, r1))
    (h3 : skipWs r1 = ':' :: r2) (h4 : parseVal f r2 = some (v, r3))
    (h5 : skipWs r3 = '}' :: t2) :
    parseMembers (f + 1) s = some ([(k, v)], t2) := by
  simp only [parseMembers, h1, h2, h3, h4, h5]

theorem validateNum_nil : validateNum [] = none := rfl

theorem parseNumber_head (c : Char) (t : Str) (nv : Int × Int) (r : Str)
    (h : parseNumber (c :: t) = some (nv, r)) : numSpanChar c = true := by
  cases hc : numSpanChar c with
  | true => rfl
  | false =>
    rcases Option.map_eq_some'.mp h with ⟨v0, hval, _⟩
    rw [List.takeWhile_cons, if_neg (by rw [hc]; exact Bool.false_ne_true), validateNum_nil]
      at hval
    exact Option.noConfusion hval

theorem parseVal_head : ∀ (f : Nat) (s : Str) (v : JsonV) (r : Str),
    parseVal f s = some (v, r) → ∃ c t2, skipWs s = c :: t2 ∧ c ≠ tickC := by
  intro f s v r h
  cases f with
  | zero => exact Option.noConfusion h
  | succ f =>
    rcases hs1 : skipWs s with _ | ⟨c, t⟩
    · rw [pv_eq_nil f s hs1] at h
      exact Option.noConfusion h
    · refine ⟨c, t, rfl, ?_⟩
      by_cases hT : ("true".toList).isPrefixOf (skipWs s) = true
      · obtain ⟨t0, happ⟩ := List.isPrefixOf_iff_prefix.mp hT
        rw [hs1] at happ
        injection happ with hc _
        rw [← hc]
        decide
      · by_cases hF : ("false".toList).isPrefixOf (skipWs s) = true
        · obtain ⟨t0, happ⟩ := List.isPrefixOf_iff_prefix.mp hF
          rw [hs1] at happ
          injection happ with hc _
          rw [← hc]
          decide
        · by_cases hN : ("null".toList).isPrefixOf (skipWs s) = true
          · obtain ⟨t0, happ⟩ := List.isPrefixOf_iff_prefix.mp hN
            rw [hs1] at happ
            injection happ with hc _
            rw [← hc]
            decide
          · by_cases hq : c = '"'
            · subst hq; decide
            · by_cases hob : c = '{'
              · subst hob; decide
              · by_cases har : c = '['
                · subst har; decide
                · rw [pv_eq_num f s c t hs1 hT hF hN hq hob har] at h
                  rcases Option.map_eq_some'.mp h with ⟨⟨nv, r0⟩, hnum, _⟩
                  exact numSpan_ne_tick c (parseNumber_head c t nv r0 hnum)

theorem parseMembers_head : ∀ (f : Nat) (s : Str) (kvs : List (Str × JsonV)) (r : Str),
    parseMembers f s = some (kvs, r) → ∃ t, skipWs s = '"' :: t := by
  intro f s kvs r h
  cases f with
  | zero => exact Option.noConfusion h
  | succ f =>
    rcases hsw : skipWs s with _ | ⟨c, t⟩
    · simp only [parseMembers, hsw] at h
      exact Option.noConfusion h
    · by_cases hc : c = '"'
      · subst hc
        exact ⟨t, rfl⟩
      · simp only [parseMembers, hsw] at h
        split at h
        · rename_i heq
          injection heq with hc2 _
          exact absurd hc2 hc
        · exact Option.noConfusion h

theorem parseElems_head : ∀ (f : Nat) (s : Str) (l : List JsonV) (r : Str),
    parseElems f s = some (l, r) → ∃ c t2, skipWs s = c :: t2 ∧ c ≠ tickC := by
  intro f s l r h
  cases f with
  | zero => exact Option.noConfusion h
  | succ f =>
    rcases hv : parseVal f s with _ | ⟨⟨v, r0⟩⟩
    · rw [pe_none f s hv] at h
      exact Option.noConfusion h
    · exact parseVal_head f s v r0 hv

theorem head_ne_tick_of_skip (r : Str) (hsafe : (skipWs r).head? ≠ some tickC) :
    r.head? ≠ some tickC := by
  cases r with
  | nil => simp
  | cons e y =>
    by_cases hw : isWsC e = true
    · intro hh
      injection hh with he
      exact absurd hw (by rw [he]; decide)
    · rw [skipWs_cons_nws e y hw] at hsafe
      exact hsafe

theorem skipWs_pyReplace_cons (pat : Str) (hp1 : pat.head? = some tickC) (s : Str)
    (c : Char) (t : Str) (h : skipWs s = c :: t) (hc : c ≠ tickC) :
    skipWs (pyReplace pat s) = c :: pyReplace pat t := by
  rw [skipWs_pyReplace pat hp1 s (Or.inr ⟨c, t, h, hc⟩), h, pyReplace_cons_ne pat hp1 c hc]

theorem pv_lit_comm (pat : Str) (hp1 : pat.head? = some tickC) (x : Char) (xs : Str)
    (hx : x ≠ tickC) (hxs : ∀ y ∈ xs, y ≠ tickC) (s t0 : Str)
    (happ : (x :: xs) ++ t0 = skipWs s) :
    skipWs (pyReplace pat s) = (x :: xs) ++ pyReplace pat t0 := by
  have hsw : skipWs s = x :: (xs ++ t0) := by rw [← happ]; rfl
  rw [skipWs_pyReplace pat hp1 s (Or.inr ⟨x, xs ++ t0, hsw, hx⟩), ← happ,
    pyReplace_span pat hp1 (x :: xs) ?_ t0]
  intro y hy
  rcases List.mem_cons.mp hy with hyx | hyxs
  · subst hyx
    exact hx
  · exact hxs y hyxs

theorem parseNumber_preserved (pat : Str) (hp1 : pat.head? = some tickC)
    (s : Str) (nv : Int × Int) (r : Str) (h : parseNumber s = some (nv, r))
    (hsafe : r.head? ≠ some tickC) :
    parseNumber (pyReplace pat s) = some (nv, pyReplace pat r) := by
  rcases Option.map_eq_some'.mp h with ⟨v0, hval, heq⟩
  injection heq with hv0 hr
  subst hv0
  subst hr
  have hmem : ∀ x ∈ s.takeWhile numSpanChar, numSpanChar x = true :=
    fun x hx => List.mem_takeWhile_imp hx
  have hmem2 : ∀ x ∈ s.takeWhile numSpanChar, x ≠ tickC :=
    fun x hx => numSpan_ne_tick x (hmem x hx)
  have hsplit : s.takeWhile numSpanChar ++ s.dropWhile numSpanChar = s :=
    List.takeWhile_append_dropWhile numSpanChar s
  have hrepl : pyReplace pat s
      = s.takeWhile numSpanChar ++ pyReplace pat (s.dropWhile numSpanChar) := by
    conv_lhs => rw [← hsplit]
    rw [pyReplace_span pat hp1 _ hmem2 _]
  rw [hrepl]
  cases hd : s.dropWhile numSpanChar with
  | nil =>
    rw [pyReplace_nil, List.append_nil]
    unfold parseNumber
    rw [(takeWhile_all numSpanChar _ hmem).1, (takeWhile_all numSpanChar _ hmem).2, hval]
    rfl
  | cons e y =>
    rw [hd] at hsafe
    have he : e ≠ tickC := by
      intro hee
      exact hsafe (by simp [hee])
    have hef : numSpanChar e = false := dropWhile_head_false numSpanChar s e y hd
    rw [pyReplace_cons_ne pat hp1 e he]
    unfold parseNumber
    rw [(takeWhile_all_append numSpanChar _ e (pyReplace pat y) hmem hef).1,
      (takeWhile_all_append numSpanChar _ e (pyReplace pat y) hmem hef).2, hval]
    rfl

theorem pm_eq_none (f : Nat) (s t : Str) (h : skipWs s = '"' :: t)
    (hb : parseStringBody t = none) : parseMembers (f + 1) s = none := by
  simp only [parseMembers, h, hb]

theorem numSpan_ne_of (c d : Char) (hc : numSpanChar c = true) (hd : numSpanChar d = false) :
    d ≠ c := by
  intro h
  rw [h] at hd
  rw [hd] at hc
  exact Bool.noConfusion hc

theorem parse_preserved (pat : Str) (hp1 : pat.head? = some tickC) (hpne : pat ≠ [])
    (hp2 : ∀ c ∈ pat, ¬ c = '"' ∧ ¬ c = '\\' ∧ ¬ c.toNat < 32) :
    ∀ f : Nat,
      (∀ s v r, parseVal f s = some (v, r) → (skipWs r).head? ≠ some tickC →
        ∃ v2, parseVal f (pyReplace pat s) = some (v2, pyReplace pat r))
      ∧ (∀ s l r, parseElems f s = some (l, r) → (skipWs r).head? ≠ some tickC →
        ∃ l2, parseElems f (pyReplace pat s) = some (l2, pyReplace pat r))
      ∧ (∀ s kvs r, parseMembers f s = some (kvs, r) → (skipWs r).head? ≠ some tickC →
        ∃ kvs2, parseMembers f (pyReplace pat s) = some (kvs2, pyReplace pat r)) := by
  intro f
  induction f with
  | zero =>
    exact ⟨fun s v r h _ => Option.noConfusion h,
      fun s l r h _ => Option.noConfusion h,
      fun s kvs r h _ => Option.noConfusion h⟩
  | succ f IH =>
    obtain ⟨IHv, IHe, IHm⟩ := IH
    refine ⟨?_, ?_, ?_⟩
    · intro s v r h hsafe
      rcases hs1 : skipWs s with _ | ⟨c, t⟩
      · rw [pv_eq_nil f s hs1] at h
        exact Option.noConfusion h
      · by_cases hT : ("true".toList).isPrefixOf (skipWs s) = true
        · rw [pv_eq_true f s hT] at h
          cases h
          obtain ⟨t0, happ⟩ := List.isPrefixOf_iff_prefix.mp hT
          have hcomm := pv_lit_comm pat hp1 't' "rue".toList (by decide) (by decide) s t0 happ
          have hdrop : (skipWs s).drop 4 = t0 := by
            rw [← happ]
            exact List.drop_left "true".toList t0
          refine ⟨.jbool true, ?_⟩
          rw [hdrop, pv_eq_true f (pyReplace pat s)
            (by rw [hcomm]; exact List.isPrefixOf_iff_prefix.mpr ⟨pyReplace pat t0, rfl⟩), hcomm]
          exact congrArg (fun z => some (JsonV.jbool true, z))
            (List.drop_left ('t' :: "rue".toList) (pyReplace pat t0))
        · by_cases hF : ("false".toList).isPrefixOf (skipWs s) = true
          · rw [pv_eq_false f s hT hF] at h
            cases h
            obtain ⟨t0, happ⟩ := List.isPrefixOf_iff_prefix.mp hF
            have hcomm := pv_lit_comm pat hp1 'f' "alse".toList (by decide) (by decide) s t0 happ
            have hdrop : (skipWs s).drop 5 = t0 := by
              rw [← happ]
              exact List.drop_left "false".toList t0
            refine ⟨.jbool false, ?_⟩
            rw [hdrop, pv_eq_false f (pyReplace pat s)
              (by
                rw [hcomm, List.cons_append, show ("true".toList) = 't' :: "rue".toList from rfl,
                  isPrefixOf_cons_ne 't' _ 'f' _ (by decide)]
                exact Bool.false_ne_true)
              (by rw [hcomm]; exact List.isPrefixOf_iff_prefix.mpr ⟨pyReplace pat t0, rfl⟩), hcomm]
            exact congrArg (fun z => some (JsonV.jbool false, z))
              (List.drop_left ('f' :: "alse".toList) (pyReplace pat t0))
          · by_cases hN : ("null".toList).isPrefixOf (skipWs s) = true
            · rw [pv_eq_null f s hT hF hN] at h
              cases h
              obtain ⟨t0, happ⟩ := List.isPrefixOf_iff_prefix.mp hN
              have hcomm := pv_lit_comm pat hp1 'n' "ull".toList (by decide) (by decide) s t0 happ
              have hdrop : (skipWs s).drop 4 = t0 := by
                rw [← happ]
                exact List.drop_left "null".toList t0
              refine ⟨.jnull, ?_⟩
              rw [hdrop, pv_eq_null f (pyReplace pat s)
                (by
                  rw [hcomm, List.cons_append, show ("true".toList) = 't' :: "rue".toList from rfl,
                    isPrefixOf_cons_ne 't' _ 'n' _ (by decide)]
                  exact Bool.false_ne_true)
                (by
                  rw [hcomm, List.cons_append, show ("false".toList) = 'f' :: "alse".toList from rfl,
                    isPrefixOf_cons_ne 'f' _ 'n' _ (by decide)]
                  exact Bool.false_ne_true)
                (by rw [hcomm]; exact List.isPrefixOf_iff_prefix.mpr ⟨pyReplace pat t0, rfl⟩),
                hcomm]
              exact congrArg (fun z => some (JsonV.jnull, z))
                (List.drop_left ('n' :: "ull".toList) (pyReplace pat t0))
            · by_cases hq : c = '"'
              · subst hq
                rw [pv_eq_str f s t hs1] at h
                rcases Option.map_eq_some'.mp h with ⟨⟨b, r0⟩, hpsb, heq2⟩
                cases heq2
                obtain ⟨b2, hb2⟩ :=
                  psb_pyReplace pat hp1 hpne hp2 t.length t b r0 (Nat.le_refl _) hpsb
                refine ⟨.jstr b2, ?_⟩
                rw [pv_eq_str f (pyReplace pat s) (pyReplace pat t)
                  (skipWs_pyReplace_cons pat hp1 s '"' t hs1 (by decide)), hb2]
                rfl
              · by_cases hob : c = '{'
                · subst hob
                  rw [pv_eq_obj f s t hs1] at h
                  split at h
                  · rename_i r0 heq2
                    cases h
                    refine ⟨.jobj [], ?_⟩
                    rw [pv_eval_obj_empty f (pyReplace pat s) (pyReplace pat t)
                      (pyReplace pat r)
                      (skipWs_pyReplace_cons pat hp1 s '{' t hs1 (by decide))
                      (skipWs_pyReplace_cons pat hp1 t '}' r heq2 (by decide))]
                  · rcases Option.map_eq_some'.mp h with ⟨⟨kvs, r0⟩, hm, heq2⟩
                    cases heq2
                    obtain ⟨t2, hq2⟩ := parseMembers_head f t kvs r0 hm
                    obtain ⟨kvs2, hm2⟩ := IHm t kvs r0 hm hsafe
                    refine ⟨.jobj kvs2, ?_⟩
                    rw [pv_eval_obj_mem f (pyReplace pat s) (pyReplace pat t) '"'
                      (pyReplace pat t2)
                      (skipWs_pyReplace_cons pat hp1 s '{' t hs1 (by decide))
                      (skipWs_pyReplace_cons pat hp1 t '"' t2 hq2 (by decide))
                      (by decide), hm2]
                    rfl
                · by_cases har : c = '['
                  · subst har
                    rw [pv_eq_arr f s t hs1] at h
                    split at h
                    · rename_i r0 heq2
                      cases h
                      refine ⟨.jarr [], ?_⟩
                      rw [pv_eval_arr_empty f (pyReplace pat s) (pyReplace pat t)
                        (pyReplace pat r)
                        (skipWs_pyReplace_cons pat hp1 s '[' t hs1 (by decide))
                        (skipWs_pyReplace_cons pat hp1 t ']' r heq2 (by decide))]
                    · rename_i hne
                      rcases Option.map_eq_some'.mp h with ⟨⟨l, r0⟩, he, heq2⟩
                      cases heq2
                      obtain ⟨c2, t3, hsw2, hc2⟩ := parseElems_head f t l r0 he
                      have hc2ne : ¬ c2 = ']' := fun hcc => hne t3 (by rw [hsw2, hcc])
                      obtain ⟨l2, he2⟩ := IHe t l r0 he hsafe
                      refine ⟨.jarr l2, ?_⟩
                      rw [pv_eval_arr_elem f (pyReplace pat s) (pyReplace pat t) c2
                        (pyReplace pat t3)
                        (skipWs_pyReplace_cons pat hp1 s '[' t hs1 (by decide))
                        (skipWs_pyReplace_cons pat hp1 t c2 t3 hsw2 hc2) hc2ne, he2]
                      rfl
                  · rw [pv_eq_num f s c t hs1 hT hF hN hq hob har] at h
                    rcases Option.map_eq_some'.mp h with ⟨⟨nv, r0⟩, hnum, heq2⟩
                    cases heq2
                    have hnc : numSpanChar c = true := parseNumber_head c t nv r0 hnum
                    have hcne : c ≠ tickC := numSpan_ne_tick c hnc
                    have hrsafe : r0.head? ≠ some tickC := head_ne_tick_of_skip r0 hsafe
                    have hnum2 := parseNumber_preserved pat hp1 (c :: t) nv r0 hnum hrsafe
                    rw [pyReplace_cons_ne pat hp1 c hcne] at hnum2
                    refine ⟨.jnum nv.1 nv.2, ?_⟩
                    rw [pv_eq_num f (pyReplace pat s) c (pyReplace pat t)
                      (skipWs_pyReplace_cons pat hp1 s c t hs1 hcne)
                      (by
                        rw [skipWs_pyReplace_cons pat hp1 s c t hs1 hcne,
                          show ("true".toList) = 't' :: "rue".toList from rfl,
                          isPrefixOf_cons_ne 't' _ c _
                            (beq_eq_false_iff_ne.mpr (numSpan_ne_of c 't' hnc (by decide)))]
                        exact Bool.false_ne_true)
                      (by
                        rw [skipWs_pyReplace_cons pat hp1 s c t hs1 hcne,
                          show ("false".toList) = 'f' :: "alse".toList from rfl,
                          isPrefixOf_cons_ne 'f' _ c _
                            (beq_eq_false_iff_ne.mpr (numSpan_ne_of c 'f' hnc (by decide)))]
                        exact Bool.false_ne_true)
                      (by
                        rw [skipWs_pyReplace_cons pat hp1 s c t hs1 hcne,
                          show ("null".toList) = 'n' :: "ull".toList from rfl,
                          isPrefixOf_cons_ne 'n' _ c _
                            (beq_eq_false_iff_ne.mpr (numSpan_ne_of c 'n' hnc (by decide)))]
                        exact Bool.false_ne_true)
                      hq hob har, hnum2]
                    rfl
    · intro s l r h hsafe
      rcases hv : parseVal f s with _ | ⟨⟨v0, r0⟩⟩
      · rw [pe_none f s hv] at h
        exact Option.noConfusion h
      · rw [pe_eq f s v0 r0 hv] at h
        split at h
        · rename_i t heq2
          rcases Option.map_eq_some'.mp h with ⟨⟨l1, r1⟩, he, heq3⟩
          cases heq3
          have hsafe0 : (skipWs r0).head? ≠ some tickC := by
            rw [heq2]
            intro hx
            injection hx with hx2
            exact absurd hx2 (by decide)
          obtain ⟨v2, hv2⟩ := IHv s v0 r0 hv hsafe0
          obtain ⟨l2, he2⟩ := IHe t l1 r1 he hsafe
          refine ⟨v2 :: l2, ?_⟩
          rw [pe_eval_comma f (pyReplace pat s) v2 (pyReplace pat r0) (pyReplace pat t) hv2
            (skipWs_pyReplace_cons pat hp1 r0 ',' t heq2 (by decide)), he2]
          rfl
        · rename_i t heq2
          cases h
          have hsafe0 : (skipWs r0).head? ≠ some tickC := by
            rw [heq2]
            intro hx
            injection hx with hx2
            exact absurd hx2 (by decide)
          obtain ⟨v2, hv2⟩ := IHv s v0 r0 hv hsafe0
          refine ⟨[v2], ?_⟩
          rw [pe_eval_close f (pyReplace pat s) v2 (pyReplace pat r0) (pyReplace pat r) hv2
            (skipWs_pyReplace_cons pat hp1 r0 ']' r heq2 (by decide))]
        · exact Option.noConfusion h
    · intro s kvs r h hsafe
      obtain ⟨t, hq⟩ := parseMembers_head (f + 1) s kvs r h
      rcases hb : parseStringBody t with _ | ⟨⟨k, r1⟩⟩
      · rw [pm_eq_none f s t hq hb] at h
        exact Option.noConfusion h
      · rw [pm_eq_some f s t k r1 hq hb] at h
        split at h
        · rename_i r2 heq2
          rcases hv : parseVal f r2 with _ | ⟨⟨v0, r3⟩⟩
          · rw [hv] at h
            exact Option.noConfusion h
          · simp only [hv] at h
            split at h
            · rename_i t2 heq3
              rcases Option.map_eq_some'.mp h with ⟨⟨kvs1, rr⟩, hm, heq4⟩
              cases heq4
              have hsafe3 : (skipWs r3).head? ≠ some tickC := by
                rw [heq3]
                intro hx
                injection hx with hx2
                exact absurd hx2 (by decide)
              obtain ⟨v2, hv2⟩ := IHv r2 v0 r3 hv hsafe3
              obtain ⟨kvs2, hm2⟩ := IHm t2 kvs1 rr hm hsafe
              obtain ⟨k2, hb2⟩ := psb_pyReplace pat hp1 hpne hp2 t.length t k r1 (Nat.le_refl _) hb
              refine ⟨(k2, v2) :: kvs2, ?_⟩
              rw [pm_eval_comma f (pyReplace pat s) (pyReplace pat t) k2 (pyReplace pat r1)
                (pyReplace pat r2) v2 (pyReplace pat r3) (pyReplace pat t2)
                (skipWs_pyReplace_cons pat hp1 s '"' t hq (by decide)) hb2
                (skipWs_pyReplace_cons pat hp1 r1 ':' r2 heq2 (by decide)) hv2
                (skipWs_pyReplace_cons pat hp1 r3 ',' t2 heq3 (by decide)), hm2]
              rfl
            · rename_i t2 heq3
              cases h
              have hsafe3 : (skipWs r3).head? ≠ some tickC := by
                rw [heq3]
                intro hx
                injection hx with hx2
                exact absurd hx2 (by decide)
              obtain ⟨v2, hv2⟩ := IHv r2 v0 r3 hv hsafe3
              obtain ⟨k2, hb2⟩ := psb_pyReplace pat hp1 hpne hp2 t.length t k r1 (Nat.le_refl _) hb
              refine ⟨[(k2, v2)], ?_⟩
              rw [pm_eval_close f (pyReplace pat s) (pyReplace pat t) k2 (pyReplace pat r1)
                (pyReplace pat r2) v2 (pyReplace pat r3) (pyReplace pat r)
                (skipWs_pyReplace_cons pat hp1 s '"' t hq (by decide)) hb2
                (skipWs_pyReplace_cons pat hp1 r1 ':' r2 heq2 (by decide)) hv2
                (skipWs_pyReplace_cons pat hp1 r3 '}' r heq3 (by decide))]
            · exact Option.noConfusion h
        · exact Option.noConfusion h

theorem skipWs_pyReplace_nil (pat : Str) (hp1 : pat.head? = some tickC) (s : Str)
    (h : skipWs s = []) : skipWs (pyReplace pat s) = [] := by
  rw [skipWs_pyReplace pat hp1 s (Or.inl h), h, pyReplace_nil]

theorem jsonLoads_preserved (pat : Str) (hp1 : pat.head? = some tickC) (hpne : pat ≠ [])
    (hp2 : ∀ c ∈ pat, ¬ c = '"' ∧ ¬ c = '\\' ∧ ¬ c.toNat < 32)
    (s : Str) (v : JsonV) (h : jsonLoads s = some v) :
    ∃ v2, jsonLoads (pyReplace pat s) = some v2 := by
  unfold jsonLoads at h ⊢
  rcases hv : parseVal jsonFuel s with _ | ⟨⟨v0, r⟩⟩
  · rw [hv] at h
    exact Option.noConfusion h
  · simp only [hv] at h
    by_cases hskip : skipWs r = []
    · have hsafe : (skipWs r).head? ≠ some tickC := by
        rw [hskip]
        exact fun hx => Option.noConfusion hx
      obtain ⟨v2, hv2⟩ := (parse_preserved pat hp1 hpne hp2 jsonFuel).1 s v0 r hv hsafe
      refine ⟨v2, ?_⟩
      simp only [hv2]
      rw [if_pos (skipWs_pyReplace_nil pat hp1 r hskip)]
    · rw [if_neg hskip] at h
      exact Option.noConfusion h

theorem jsonLoads_stripFences (s : Str) (v : JsonV) (h : jsonLoads s = some v) :
    ∃ v2, jsonLoads (stripFences s) = some v2 := by
  obtain ⟨v1, h1⟩ := jsonLoads_preserved fenceMarkJson (by decide) (by decide)
    (by decide) s v h
  obtain ⟨v2, h2⟩ := jsonLoads_preserved fenceMark (by decide) (by decide)
    (by decide) _ v1 h1
  exact ⟨v2, h2⟩

/-- **C9.** The response parser is blind to one surrounding pair of code-fence
markers: for every content string, parsing the fence-wrapped form gives exactly
the same result as parsing the bare content, and whenever the bare content is
valid JSON both parses succeed, on a common value. -/
theorem claim_C9_fence_tolerance (c : Str) :
    parseResponse (fencedWrap c) = parseResponse c
    ∧ ∀ v, jsonLoads c = some v →
        ∃ v2, parseResponse c = some v2 ∧ parseResponse (fencedWrap c) = some v2 := by
  constructor
  · unfold parseResponse
    rw [stripFences_fencedWrap]
  · intro v hv
    obtain ⟨v2, h2⟩ := jsonLoads_stripFences c v hv
    refine ⟨v2, h2, ?_⟩
    unfold parseResponse
    rw [stripFences_fencedWrap]
    exact h2

/-- Witness for C9: a concrete valid JSON object, with and without fences. -/
theorem claim_C9_witness :
    (parseResponse (fencedWrap ("\x7b\"a\": 1\x7d".toList)) = parseResponse ("\x7b\"a\": 1\x7d".toList))
    ∧ jsonLoads ("\x7b\"a\": 1\x7d".toList) = some (.jobj [("a".toList, .jnum 1 0)])
    ∧ ∃ v2, parseResponse ("\x7b\"a\": 1\x7d".toList) = some v2
        ∧ parseResponse (fencedWrap ("\x7b\"a\": 1\x7d".toList)) = some v2 :=
  ⟨(claim_C9_fence_tolerance _).1, rfl,
    (claim_C9_fence_tolerance _).2 _ rfl⟩


/-! ## HistoryStore: the 20-entry cap (C5) -/

theorem take_append_take {α : Type} (a b : List α) (n : Nat) :
    (a ++ b.take n).take n = (a ++ b).take n := by
  rw [List.take_append_eq_append_take, List.take_append_eq_append_take, List.take_take,
    Nat.min_eq_left (Nat.sub_le n a.length)]

/-- Any non-empty sequence of appends leaves exactly the 20 newest entries,
newest first. -/
theorem save_history_foldl (es : List HistObj) (hne : es ≠ []) (store : List HistObj) :
    List.foldl save_history store es = (es.reverse ++ store).take 20 := by
  induction es generalizing store with
  | nil => exact absurd rfl hne
  | cons e es IH =>
    cases es with
    | nil => simp [save_history]
    | cons e2 es2 =>
      rw [List.foldl_cons, IH (by simp) (save_history store e)]
      show ((e2 :: es2).reverse ++ (e :: store).take 20).take 20 = _
      rw [take_append_take]
      congr 1
      simp [List.append_assoc]

/-- **C5.** For any starting persisted history and any non-empty sequence
of appends, the store afterwards holds at most 20 entries and equals the
most-recent-first sequence of all appended entries followed by the old
ones, truncated to 20: each append prepends at the front, the cap evicts
from the end. -/
theorem claim_C5_history_cap (store : List HistObj) (es : List HistObj) (hne : es ≠ []) :
    (List.foldl save_history store es).length ≤ 20 ∧
      List.foldl save_history store es = (es.reverse ++ store).take 20 ∧
      ∀ e tl, es.reverse = e :: tl →
        List.foldl save_history store es = e :: (tl ++ store).take 19 := by
  refine ⟨?_, save_history_foldl es hne store, ?_⟩
  · rw [save_history_foldl es hne store]
    simp [List.length_take]
  · intro e tl hrev
    rw [save_history_foldl es hne store, hrev]
    rfl

/-- Witness for C5: twenty-one appends onto an empty store leave exactly
20 entries. -/
theorem claim_C5_witness :
    (List.replicate 21 ([] : HistObj) ≠ []) ∧
      ((List.foldl save_history [] (List.replicate 21 [])).length ≤ 20 ∧
        List.foldl save_history [] (List.replicate 21 []) =
          ((List.replicate 21 ([] : HistObj)).reverse ++ []).take 20 ∧
        ∀ e tl, (List.replicate 21 ([] : HistObj)).reverse = e :: tl →
          List.foldl save_history [] (List.replicate 21 []) = e :: (tl ++ []).take 19) :=
  ⟨by simp, claim_C5_history_cap [] (List.replicate 21 []) (by simp)⟩

/-! ## ModelInvoker: the fallback loop (C4) -/

/-- If every candidate in a block fails and then one succeeds, the loop
attempts exactly the failing block plus the succeeding candidate, in
order, and returns that success. -/
theorem genLoop_prefix_success (call : Str → Except PyErr Str) (errOf : Str → PyErr) :
    ∀ ms1 m ms2 r last, (∀ x ∈ ms1, call x = .error (errOf x)) → call m = .ok r →
      genLoop call (ms1 ++ m :: ms2) last = (ms1 ++ [m], .ok r) := by
  intro ms1
  induction ms1 with
  | nil =>
    intro m ms2 r last _ hm
    simp [genLoop, hm]
  | cons x ms1 IH =>
    intro m ms2 r last hfail hm
    have hx : call x = .error (errOf x) := hfail x (by simp)
    simp only [List.cons_append, genLoop, hx, List.append_eq]
    rw [IH m ms2 r (some (errOf x)) (fun y hy => hfail y (by simp [hy])) hm]

/-- If every candidate of a block ending in `mlast` fails, the loop
attempts the whole block and raises the error of `mlast`, the last
candidate. -/
theorem genLoop_all_fail (call : Str → Except PyErr Str) (errOf : Str → PyErr) :
    ∀ ms1 mlast last, (∀ x ∈ ms1 ++ [mlast], call x = .error (errOf x)) →
      genLoop call (ms1 ++ [mlast]) last = (ms1 ++ [mlast], .error (errOf mlast)) := by
  intro ms1
  induction ms1 with
  | nil =>
    intro mlast last hfail
    have hm : call mlast = .error (errOf mlast) := hfail mlast (by simp)
    simp [genLoop, hm]
  | cons x ms1 IH =>
    intro mlast last hfail
    have hx : call x = .error (errOf x) := hfail x (by simp)
    simp only [List.cons_append, genLoop, hx, List.append_eq]
    rw [IH mlast (some (errOf x)) (fun y hy => hfail y (by simp at hy ⊢; tauto))]

/-- **C4.** `generate_with_fallback` attempts the fixed candidate list
strictly in priority order: whenever the candidates split as a failing
prefix followed by a succeeding candidate, exactly that prefix plus the
succeeding candidate are attempted and its response is returned (no later
candidate is attempted); and when every candidate fails, the error raised
is the one recorded from the last candidate attempted
(`gemini-2.0-pro`). -/
theorem claim_C4_fallback_order (call : Str → Except PyErr Str) (errOf : Str → PyErr) :
    (∀ ms1 m ms2 r, candidate_models = ms1 ++ m :: ms2 →
        (∀ x ∈ ms1, call x = .error (errOf x)) → call m = .ok r →
        generate_with_fallback call = (ms1 ++ [m], .ok r)) ∧
      ((∀ x ∈ candidate_models, call x = .error (errOf x)) →
        generate_with_fallback call = (candidate_models, .error (errOf "gemini-2.0-pro".toList))) := by
  constructor
  · intro ms1 m ms2 r hsplit hfail hm
    unfold generate_with_fallback
    rw [hsplit]
    exact genLoop_prefix_success call errOf ms1 m ms2 r none hfail hm
  · intro hfail
    unfold generate_with_fallback
    rw [show candidate_models
        = ["gemini-2.5-flash".toList, "gemini-2.5-pro".toList, "gemini-pro".toList]
          ++ ["gemini-2.0-pro".toList] from rfl]
    exact genLoop_all_fail call errOf _ _ none (fun x hx => hfail x hx)

/-! ## Trend chart (C10) -/

theorem pyEqScalar_refl (v : JsonV) (hn : isNullJ v = false) (hh : hashableJ v = true) :
    pyEqScalar v v = true := by
  cases v with
  | jnull => simp [isNullJ] at hn
  | jbool b => cases b <;> rfl
  | jnum m e => simp [pyEqScalar, pyNumOf, jnumEqv]
  | jstr s => simp [pyEqScalar, pyNumOf]
  | jarr xs => simp [hashableJ] at hh
  | jobj kvs => simp [hashableJ] at hh

theorem bumpCount_total : ∀ acc v,
    ((bumpCount acc v).map Prod.snd).sum = (acc.map Prod.snd).sum + 1 := by
  intro acc
  induction acc with
  | nil => intro v; simp [bumpCount]
  | cons p rest IH =>
    intro v
    rcases p with ⟨u, n⟩
    by_cases h : pyEqScalar u v = true
    · simp [bumpCount, h]
      omega
    · simp [bumpCount, h, IH v]
      omega

theorem bumpCount_cover_preserved : ∀ acc v w,
    (∃ p ∈ acc, pyEqScalar p.1 w = true) →
      ∃ p ∈ bumpCount acc v, pyEqScalar p.1 w = true := by
  intro acc
  induction acc with
  | nil => intro v w h; simp at h
  | cons q rest IH =>
    intro v w h
    rcases q with ⟨u, n⟩
    rcases h with ⟨p, hp, hpw⟩
    by_cases huv : pyEqScalar u v = true
    · simp only [bumpCount, if_pos huv]
      rcases List.mem_cons.mp hp with hp | hp
      · refine ⟨(u, n + 1), List.mem_cons_self _ _, ?_⟩
        have hpu : p.1 = u := by rw [hp]
        rw [show ((u, n + 1) : JsonV × Nat).1 = u from rfl, ← hpu]
        exact hpw
      · exact ⟨p, List.mem_cons_of_mem _ hp, hpw⟩
    · simp only [bumpCount, if_neg huv]
      rcases List.mem_cons.mp hp with hp | hp
      · refine ⟨(u, n), List.mem_cons_self _ _, ?_⟩
        have hpu : p.1 = u := by rw [hp]
        rw [show ((u, n) : JsonV × Nat).1 = u from rfl, ← hpu]
        exact hpw
      · rcases IH v w ⟨p, hp, hpw⟩ with ⟨q, hq, hqw⟩
        exact ⟨q, List.mem_cons_of_mem _ hq, hqw⟩

theorem bumpCount_cover_new : ∀ acc v, pyEqScalar v v = true →
    ∃ p ∈ bumpCount acc v, pyEqScalar p.1 v = true := by
  intro acc
  induction acc with
  | nil => intro v hv; exact ⟨(v, 1), by simp [bumpCount], hv⟩
  | cons q rest IH =>
    intro v hv
    rcases q with ⟨u, n⟩
    by_cases huv : pyEqScalar u v = true
    · exact ⟨(u, n + 1), by simp [bumpCount, huv], huv⟩
    · rcases IH v hv with ⟨p, hp, hpv⟩
      exact ⟨p, by simp [bumpCount, huv, hp], hpv⟩

theorem foldl_bump_total : ∀ vs acc,
    ((List.foldl bumpCount acc vs).map Prod.snd).sum = (acc.map Prod.snd).sum + vs.length := by
  intro vs
  induction vs with
  | nil => intro acc; simp
  | cons v vs IH =>
    intro acc
    rw [List.foldl_cons, IH (bumpCount acc v), bumpCount_total acc v]
    simp
    omega

theorem foldl_bump_cover_preserved : ∀ vs acc w,
    (∃ p ∈ acc, pyEqScalar p.1 w = true) →
      ∃ p ∈ List.foldl bumpCount acc vs, pyEqScalar p.1 w = true := by
  intro vs
  induction vs with
  | nil => intro acc w h; simpa using h
  | cons v vs IH =>
    intro acc w h
    exact IH (bumpCount acc v) w (bumpCount_cover_preserved acc v w h)

theorem foldl_bump_cover : ∀ vs acc w, w ∈ vs → pyEqScalar w w = true →
    ∃ p ∈ List.foldl bumpCount acc vs, pyEqScalar p.1 w = true := by
  intro vs
  induction vs with
  | nil => intro acc w h _; simp at h
  | cons v vs IH =>
    intro acc w h hw
    rcases List.mem_cons.mp h with h | h
    · subst h
      exact foldl_bump_cover_preserved vs (bumpCount acc w) w (bumpCount_cover_new acc w hw)
    · exact IH (bumpCount acc v) w h hw

/-- **C10, counterexample.** A non-empty history whose entries carry a
`mood` key need not yield a chart of per-mood entry counts: an array mood
makes `value_counts` raise `TypeError` instead of returning a chart, and
a JSON `null` mood is dropped as NA, leaving an empty chart though one
entry carries the key. -/
theorem claim_C10_counterexample :
    plot_mood_trend [[("mood".toList, JsonV.jarr [])]] = .error "unhashable type".toList ∧
      plot_mood_trend [[("mood".toList, JsonV.jnull)]] = .ok (some []) ∧
      (∃ e, e ∈ ([[("mood".toList, JsonV.jnull)]] : List HistObj) ∧
        assocLast e "mood".toList ≠ none) :=
  ⟨rfl, rfl, ⟨[("mood".toList, JsonV.jnull)], by simp, fun hx => Option.noConfusion hx⟩⟩

/-- **C10, amended.** The trend-chart computation returns `None` exactly
when the history is empty or no entry carries a `mood` key.  On any other
history `value_counts` first drops JSON `null` moods as NA cells; a chart
is returned exactly when every remaining mood value is hashable, its
group counts then total the number of entries with a non-null mood and
its groups cover every such mood value; otherwise (some non-null mood an
array or object) the computation raises `TypeError`. -/
theorem claim_C10_plot_mood_trend (h : List HistObj) :
    (plot_mood_trend h = .ok none ↔
        (h = [] ∨ ∀ e ∈ h, assocLast e "mood".toList = none)) ∧
      (∀ chart, plot_mood_trend h = .ok (some chart) →
        (((h.filterMap (fun e => assocLast e "mood".toList)).filter
              (fun v => !isNullJ v)).all hashableJ = true ∧
          (chart.map Prod.snd).sum
            = ((h.filterMap (fun e => assocLast e "mood".toList)).filter
                (fun v => !isNullJ v)).length ∧
          ∀ v ∈ (h.filterMap (fun e => assocLast e "mood".toList)).filter
              (fun v => !isNullJ v),
            ∃ p ∈ chart, pyEqScalar p.1 v = true)) ∧
      (∀ err, plot_mood_trend h = .error err →
        ∃ v ∈ (h.filterMap (fun e => assocLast e "mood".toList)).filter
            (fun v => !isNullJ v), hashableJ v = false) := by
  refine ⟨?_, ?_, ?_⟩
  · unfold plot_mood_trend
    cases hemp : h.isEmpty with
    | true =>
      refine iff_of_true ?_ (Or.inl (List.isEmpty_iff.mp hemp))
      exact if_pos rfl
    | false =>
      rw [if_neg (show ¬ (false = true) by decide)]
      have hne : h ≠ [] := by
        intro hx
        rw [hx] at hemp
        exact absurd hemp (by decide)
      cases hall : h.all (fun e => (assocLast e "mood".toList).isNone) with
      | true =>
        refine iff_of_true (if_pos rfl) (Or.inr ?_)
        intro e he
        exact Option.isNone_iff_eq_none.mp ((List.all_eq_true.mp hall) e he)
      | false =>
        rw [if_neg (show ¬ (false = true) by decide)]
        refine iff_of_false ?_ ?_
        · cases hvc : valueCounts (h.filterMap (fun e => assocLast e "mood".toList)) with
          | error e => simp [hvc, Except.map]
          | ok c => simp [hvc, Except.map]
        · rintro (hx | hx)
          · exact hne hx
          · have hy : h.all (fun e => (assocLast e "mood".toList).isNone) = true :=
              List.all_eq_true.mpr (fun e he => Option.isNone_iff_eq_none.mpr (hx e he))
            rw [hy] at hall
            exact absurd hall (by decide)
  · intro chart hchart
    unfold plot_mood_trend at hchart
    cases hemp : h.isEmpty with
    | true => rw [hemp, if_pos rfl] at hchart; exact absurd hchart (by simp)
    | false =>
      rw [hemp, if_neg (show ¬ (false = true) by decide)] at hchart
      cases hall : h.all (fun e => (assocLast e "mood".toList).isNone) with
      | true => rw [hall, if_pos rfl] at hchart; exact absurd hchart (by simp)
      | false =>
        rw [hall, if_neg (show ¬ (false = true) by decide)] at hchart
        cases hvc : valueCounts (h.filterMap (fun e => assocLast e "mood".toList)) with
        | error e =>
          rw [hvc] at hchart
          exact absurd hchart (by simp [Except.map])
        | ok c =>
          rw [hvc] at hchart
          have hc : c = chart := by simpa [Except.map] using hchart
          subst hc
          unfold valueCounts at hvc
          cases hallh : ((h.filterMap (fun e => assocLast e "mood".toList)).filter
              (fun v => !isNullJ v)).all hashableJ with
          | false =>
            rw [hallh, if_neg (show ¬ (false = true) by decide)] at hvc
            exact absurd hvc (by simp)
          | true =>
            rw [hallh, if_pos rfl] at hvc
            have hcc := Except.ok.inj hvc
            refine ⟨rfl, ?_, ?_⟩
            · rw [← hcc]
              simpa using foldl_bump_total
                ((h.filterMap (fun e => assocLast e "mood".toList)).filter
                  (fun v => !isNullJ v)) []
            · intro v hv
              rw [← hcc]
              refine foldl_bump_cover _ [] v hv ?_
              have hn : isNullJ v = false := by
                have := (List.mem_filter.mp hv).2
                simpa using this
              exact pyEqScalar_refl v hn ((List.all_eq_true.mp hallh) v hv)
  · intro err herr
    unfold plot_mood_trend at herr
    cases hemp : h.isEmpty with
    | true => rw [hemp, if_pos rfl] at herr; exact absurd herr (by simp)
    | false =>
      rw [hemp, if_neg (show ¬ (false = true) by decide)] at herr
      cases hall : h.all (fun e => (assocLast e "mood".toList).isNone) with
      | true => rw [hall, if_pos rfl] at herr; exact absurd herr (by simp)
      | false =>
        rw [hall, if_neg (show ¬ (false = true) by decide)] at herr
        cases hallh : ((h.filterMap (fun e => assocLast e "mood".toList)).filter
            (fun v => !isNullJ v)).all hashableJ with
        | true =>
          unfold valueCounts at herr
          rw [hallh, if_pos rfl] at herr
          exact absurd herr (by simp [Except.map])
        | false =>
          by_contra hcon
          push_neg at hcon
          have hy : ((h.filterMap (fun e => assocLast e "mood".toList)).filter
              (fun v => !isNullJ v)).all hashableJ = true :=
            List.all_eq_true.mpr (fun v hv => by
              cases hx : hashableJ v with
              | false => exact absurd hx (hcon v hv)
              | true => rfl)
          rw [hy] at hallh
          exact absurd hallh (by decide)

/-- Witness for the amended C10: a history with one string mood, one JSON
`null` mood and one mood-less entry yields the singleton chart counting
only the string mood, with the amended totals and coverage. -/
theorem claim_C10_witness :
    plot_mood_trend [[("mood".toList, JsonV.jstr "Happy".toList)],
        [("mood".toList, JsonV.jnull)], [("x".toList, JsonV.jnull)]]
        = .ok (some [(JsonV.jstr "Happy".toList, 1)]) ∧
      ((([[("mood".toList, JsonV.jstr "Happy".toList)], [("mood".toList, JsonV.jnull)],
            [("x".toList, JsonV.jnull)]].filterMap
              (fun e => assocLast e "mood".toList)).filter
            (fun v => !isNullJ v)).all hashableJ = true ∧
        (([(JsonV.jstr "Happy".toList, 1)].map Prod.snd).sum
          = (([[("mood".toList, JsonV.jstr "Happy".toList)], [("mood".toList, JsonV.jnull)],
              [("x".toList, JsonV.jnull)]].filterMap
                (fun e => assocLast e "mood".toList)).filter
              (fun v => !isNullJ v)).length) ∧
        ∀ v ∈ ([[("mood".toList, JsonV.jstr "Happy".toList)], [("mood".toList, JsonV.jnull)],
            [("x".toList, JsonV.jnull)]].filterMap
              (fun e => assocLast e "mood".toList)).filter
            (fun v => !isNullJ v),
          ∃ p ∈ [(JsonV.jstr "Happy".toList, 1)], pyEqScalar p.1 v = true) :=
  ⟨rfl, (claim_C10_plot_mood_trend _).2.1 [(JsonV.jstr "Happy".toList, 1)] rfl⟩

/-! ## Configuration guard (C1) -/

/-- **C1, counterexample.** With the environment variable absent, the
configured key is the non-empty placeholder, so a run does not end in the
configuration-error state and model calls are made: it attempts all four
candidates and ends in a pipeline error. -/
theorem claim_C1_counterexample :
    API_KEY_from none = DEFAULT_KEY ∧
      (analyze_process (API_KEY_from none) svcW_fail "2025-01-01 00:00".toList
          "hi".toList "hi".toList []).terminal
        = .pipelineError "404 models/gemini not found".toList ∧
      Terminal.pipelineError "404 models/gemini not found".toList ≠ .configurationError ∧
      (analyze_process (API_KEY_from none) svcW_fail "2025-01-01 00:00".toList
          "hi".toList "hi".toList []).calls.length = 4 :=
  ⟨rfl, rfl, fun hc => Terminal.noConfusion hc, rfl⟩

/-- **C1, amended.** If the configured credential string is empty — which
happens only when the environment variable is set to the empty string,
since absence yields the non-empty placeholder default — then every run
returns the API-key-error tuple immediately, in the configuration-error
terminal state, with no model call and the store untouched. -/
theorem claim_C1_empty_key_guard (env : Option Str) (hk : API_KEY_from env = [])
    (svc : Str → Str → Except PyErr Str) (now t a : Str) (store : List HistObj) :
    analyze_process (API_KEY_from env) svc now t a store =
      ⟨⟨"⚠️ API Key Error.".toList, [], [], [], none, [], ⟨none, false⟩⟩, store, [],
        .configurationError⟩ := by
  rw [hk]
  unfold analyze_process
  rw [if_pos rfl]

/-- Witness for the amended C1: the empty-string environment value. -/
theorem claim_C1_witness :
    API_KEY_from (some []) = [] ∧
      analyze_process (API_KEY_from (some [])) svcW_ok "t".toList "hi".toList "hi".toList [] =
        ⟨⟨"⚠️ API Key Error.".toList, [], [], [], none, [], ⟨none, false⟩⟩, [], [],
          .configurationError⟩ :=
  ⟨rfl, claim_C1_empty_key_guard (some []) rfl svcW_ok "t".toList "hi".toList "hi".toList []⟩

/-! ## Crisis runs do not persist history (C3) -/

/-- **C3.** Every run that ends in the safety-intervention terminal state
leaves the persisted history exactly as it was: no entry is appended. -/
theorem claim_C3_safety_no_persist (apiKey : Str) (svc : Str → Str → Except PyErr Str)
    (now t a : Str) (store : List HistObj)
    (h : (analyze_process apiKey svc now t a store).terminal = .safetyIntervention) :
    (analyze_process apiKey svc now t a store).store = store := by
  obtain ⟨r, hr⟩ : ∃ r, analyze_process apiKey svc now t a store = r := ⟨_, rfl⟩
  rw [hr] at h ⊢
  simp only [analyze_process] at hr
  repeat' split at hr
  all_goals (subst hr; simp [abortRun] at h ⊢)

/-- Witness for C3: a crisis-flagged run on a one-entry store ends in
safety intervention and leaves the store unchanged. -/
theorem claim_C3_witness :
    (analyze_process DEFAULT_KEY svcW_crisis "t".toList "hi".toList "hi".toList
          [[("timestamp".toList, .jstr "x".toList), ("summary".toList, .jstr "s".toList)]]).terminal
        = .safetyIntervention ∧
      (analyze_process DEFAULT_KEY svcW_crisis "t".toList "hi".toList "hi".toList
          [[("timestamp".toList, .jstr "x".toList), ("summary".toList, .jstr "s".toList)]]).store
        = [[("timestamp".toList, .jstr "x".toList), ("summary".toList, .jstr "s".toList)]] :=
  ⟨rfl, claim_C3_safety_no_persist DEFAULT_KEY svcW_crisis "t".toList "hi".toList "hi".toList
    [[("timestamp".toList, .jstr "x".toList), ("summary".toList, .jstr "s".toList)]] rfl⟩

/-! ## Risk flag short-circuits the pipeline (C2) -/

/-- **C2.** Whenever the guards pass, mood detection succeeds and its
parsed result carries `risk_flag` true, the run returns the crisis tuple
in the safety-intervention terminal state; the only model calls of the
whole run are the mood-detection attempts (the crisis check is replaced by
the literal crisis result, and no crisis-check, therapy, summary or
journaling call occurs), and the store is untouched. -/
theorem claim_C2_risk_short_circuit (apiKey : Str) (svc : Str → Str → Except PyErr Str)
    (now t a : Str) (store : List HistObj) (ms : List Str) (txt : Str) (mood_data : JsonV)
    (hh : Str)
    (hkey : ¬ apiKey = [])
    (hinput : ¬ (t = [] ∧ a = []))
    (hgen : generate_with_fallback (fun m => svc m (MOOD_DETECTION_PROMPT t)) = (ms, .ok txt))
    (hparse : parseResponse txt = some mood_data)
    (hrisk : pyGet mood_data "risk_flag".toList (.jbool false) = .ok (.jbool true))
    (hfmt : format_history_html store = .ok hh) :
    analyze_process apiKey svc now t a store =
      ⟨⟨"Crisis Detected".toList, "Please seek help.".toList, "See safety card.".toList,
         "High Risk".toList, none, hh, ⟨some risk_msg, true⟩⟩, store,
        ms.map (fun m => (CallTag.moodDetect, m)), .safetyIntervention⟩ := by
  obtain ⟨kvs, rfl⟩ : ∃ kvs, mood_data = JsonV.jobj kvs := by
    cases mood_data <;> first | exact ⟨_, rfl⟩ | simp [pyGet] at hrisk
  simp only [pyGet, Except.ok.injEq] at hrisk
  simp only [analyze_process]
  rw [if_neg hkey, if_neg hinput]
  simp only [hgen, hparse, pyGet]
  rw [hrisk]
  simp [pyTruthy, pyGetNone, pyGet, assocLast, hfmt]

/-- Witness for C2: the crisis-flagged service answers the first candidate
immediately; the run short-circuits after that single model call. -/
theorem claim_C2_witness :
    (generate_with_fallback (fun m => svcW_crisis m (MOOD_DETECTION_PROMPT "hi".toList))
        = (["gemini-2.5-flash".toList], .ok crisisResp)) ∧
      parseResponse crisisResp
        = some (.jobj [("mood".toList, .jstr "Sad".toList),
            ("confidence".toList, .jnum 90 0), ("risk_flag".toList, .jbool true)]) ∧
      analyze_process DEFAULT_KEY svcW_crisis "t".toList "hi".toList "hi".toList [] =
        ⟨⟨"Crisis Detected".toList, "Please seek help.".toList, "See safety card.".toList,
           "High Risk".toList, none,
           ("<p style=\x27color: #9ca3af; text-align: center; margin-top: 20px;\x27>No entries yet. Start journaling!</p>").toList,
           ⟨some risk_msg, true⟩⟩, [],
          [(CallTag.moodDetect, "gemini-2.5-flash".toList)], .safetyIntervention⟩ :=
  ⟨rfl, rfl,
    claim_C2_risk_short_circuit DEFAULT_KEY svcW_crisis "t".toList "hi".toList "hi".toList []
      ["gemini-2.5-flash".toList] crisisResp
      (.jobj [("mood".toList, .jstr "Sad".toList), ("confidence".toList, .jnum 90 0),
        ("risk_flag".toList, .jbool true)])
      ("<p style=\x27color: #9ca3af; text-align: center; margin-top: 20px;\x27>No entries yet. Start journaling!</p>").toList
      (by decide) (by decide) rfl rfl rfl rfl⟩

/-! ## A fully successful normal-branch run -/

/-- The successful normal branch, in full: under the stated outcomes of
the five model calls (with at most one journaling prompt), the run returns
the success tuple built from the parsed fields, appends exactly one entry,
and records the five steps' call attempts in order. -/
theorem normal_run_success
    (apiKey : Str) (svc : Str → Str → Except PyErr Str) (now t a : Str) (store : List HistObj)
    (ms1 ms2 ms3 ms4 ms5 : List Str) (moodTxt ctxt therapyTxt summaryTxt journalTxt : Str)
    (M C S J A : List (Str × JsonV)) (mood confidence summaryV slot1 : JsonV)
    (themesTxt hh : Str) (chart : Option (List (JsonV × Nat))) (nP : Nat)
    (hkey : ¬ apiKey = [])
    (hinput : ¬ (t = [] ∧ a = []))
    (hgen1 : generate_with_fallback (fun m => svc m (MOOD_DETECTION_PROMPT t)) = (ms1, .ok moodTxt))
    (hparse1 : parseResponse moodTxt = some (.jobj M))
    (hmood : (assocLast M "mood".toList).getD (.jstr "Unknown".toList) = mood)
    (hconf : (assocLast M "confidence".toList).getD (.jnum 0 0) = confidence)
    (hriskF : pyTruthy ((assocLast M "risk_flag".toList).getD (.jbool false)) = false)
    (hgen2 : generate_with_fallback (fun m => svc m (CRISIS_CHECK_PROMPT t)) = (ms2, .ok ctxt))
    (hparse2 : parseResponse ctxt = some (.jobj C))
    (hiscF : pyTruthy ((assocLast C "is_crisis".toList).getD .jnull) = false)
    (hgen3 : generate_with_fallback (fun m => svc m (THERAPY_RESPONSE_PROMPT t (pyStr mood)))
      = (ms3, .ok therapyTxt))
    (hgen4 : generate_with_fallback (fun m => svc m (SUMMARY_PROMPT t (pyStr mood)))
      = (ms4, .ok summaryTxt))
    (hparse4 : parseResponse summaryTxt = some (.jobj S))
    (hgen5 : generate_with_fallback (fun m => svc m (JOURNALING_ANALYSIS_PROMPT t (pyStr mood)))
      = (ms5, .ok journalTxt))
    (hparse5 : parseResponse journalTxt = some (.jobj J))
    (hsummV : (assocLast S "summary".toList).getD (.jstr []) = summaryV)
    (hactions : assocLast S "actions".toList = some (.jobj A))
    (hjoin : pyJoin ", ".toList ((assocLast J "themes".toList).getD (.jarr [])) = .ok themesTxt)
    (hslot1 : pyIndex ((assocLast J "prompts".toList).getD (.jarr [.jstr []])) 0 = .ok slot1)
    (hlen : pyLenJ ((assocLast J "prompts".toList).getD (.jarr [])) = .ok nP)
    (hnpLe : ¬ 1 < nP)
    (hplot : plot_mood_trend (save_history store
        [("timestamp".toList, .jstr now), ("input".toList, .jstr (t.take 50 ++ "...".toList)),
         ("mood".toList, mood), ("confidence".toList, confidence),
         ("summary".toList, summaryV)]) = .ok chart)
    (hfmt : format_history_html (save_history store
        [("timestamp".toList, .jstr now), ("input".toList, .jstr (t.take 50 ++ "...".toList)),
         ("mood".toList, mood), ("confidence".toList, confidence),
         ("summary".toList, summaryV)]) = .ok hh) :
    analyze_process apiKey svc now t a store =
      ⟨⟨pyStr mood ++ " (".toList ++ pyStr confidence ++ "%)".toList, therapyTxt,
         actions_html_render (pyStr ((assocLast A "breathing".toList).getD .jnull))
           (pyStr ((assocLast A "immediate".toList).getD .jnull))
           (pyStr ((assocLast A "long_term".toList).getD .jnull)),
         journal_html_render themesTxt (pyStr slot1) [],
         chart,
         hh, ⟨none, false⟩⟩,
        save_history store
          [("timestamp".toList, .jstr now), ("input".toList, .jstr (t.take 50 ++ "...".toList)),
           ("mood".toList, mood), ("confidence".toList, confidence),
           ("summary".toList, summaryV)],
        ms1.map (fun m => (CallTag.moodDetect, m)) ++ ms2.map (fun m => (CallTag.crisisCheck, m))
          ++ ms3.map (fun m => (CallTag.therapy, m)) ++ ms4.map (fun m => (CallTag.summary, m))
          ++ ms5.map (fun m => (CallTag.journaling, m)),
        .success⟩ := by
  simp only [analyze_process]
  rw [if_neg hkey, if_neg hinput]
  simp only [hgen1, hparse1, pyGet]
  rw [hmood, hconf, hriskF]
  simp only [Bool.false_eq_true, if_false]
  simp only [hgen2, hparse2, pyGetNone, pyGet]
  rw [hiscF]
  simp only [Bool.false_eq_true, if_false]
  simp only [hgen3, hgen4, hparse4, hgen5, hparse5]
  rw [hsummV]
  simp only [pyGetItemKey]
  rw [hactions]
  simp only [pyGetNone, pyGet]
  simp only [hjoin, hslot1, hlen]
  rw [if_neg hnpLe]
  simp only [hplot, hfmt]

/-! ## Graceful degradation of optional fields (C6) -/

/-- **C6, counterexample.** A journaling result whose `prompts` list is
present but empty has fewer than 2 prompts, yet the run fails: the first
prompt slot raises `IndexError` and the run aborts with a pipeline error
(after the history entry was already saved). -/
theorem claim_C6_counterexample :
    (∃ kvs, parseResponse emptyPromptsResp = some (.jobj kvs) ∧
        assocLast kvs "prompts".toList = some (.jarr [])) ∧
      (analyze_process "k".toList svcW_emptyPrompts "t".toList "hi".toList "hi".toList
          []).terminal
        = .pipelineError "list index out of range".toList :=
  ⟨⟨[("mood".toList, .jstr "Happy".toList), ("confidence".toList, .jnum 85 0),
     ("risk_flag".toList, .jbool false), ("is_crisis".toList, .jbool false),
     ("summary".toList, .jstr "doing fine".toList),
     ("actions".toList, .jobj [("breathing".toList, .jstr "b".toList),
       ("immediate".toList, .jstr "i".toList), ("long_term".toList, .jstr "l".toList)]),
     ("themes".toList, .jarr [.jstr "t1".toList]), ("prompts".toList, .jarr [])],
    rfl, rfl⟩, rfl⟩

/-- **C6, amended.** In a run whose five model calls succeed with parsed
object results: a journaling result with exactly one prompt renders the
second prompt slot as the empty string and the run succeeds; a journaling
result with no `prompts` key renders both slots empty and the run
succeeds; and an action field missing from the summary's actions object
renders as the text `None`.  (A present-but-empty `prompts` list, by the
counterexample, instead fails the run.) -/
theorem claim_C6_graceful_degradation
    (apiKey : Str) (svc : Str → Str → Except PyErr Str) (now t a : Str) (store : List HistObj)
    (ms1 ms2 ms3 ms4 ms5 : List Str) (moodTxt ctxt therapyTxt summaryTxt journalTxt : Str)
    (M C S J A : List (Str × JsonV)) (mood confidence summaryV : JsonV)
    (themesTxt hh : Str) (chart : Option (List (JsonV × Nat)))
    (hkey : ¬ apiKey = [])
    (hinput : ¬ (t = [] ∧ a = []))
    (hgen1 : generate_with_fallback (fun m => svc m (MOOD_DETECTION_PROMPT t)) = (ms1, .ok moodTxt))
    (hparse1 : parseResponse moodTxt = some (.jobj M))
    (hmood : (assocLast M "mood".toList).getD (.jstr "Unknown".toList) = mood)
    (hconf : (assocLast M "confidence".toList).getD (.jnum 0 0) = confidence)
    (hriskF : pyTruthy ((assocLast M "risk_flag".toList).getD (.jbool false)) = false)
    (hgen2 : generate_with_fallback (fun m => svc m (CRISIS_CHECK_PROMPT t)) = (ms2, .ok ctxt))
    (hparse2 : parseResponse ctxt = some (.jobj C))
    (hiscF : pyTruthy ((assocLast C "is_crisis".toList).getD .jnull) = false)
    (hgen3 : generate_with_fallback (fun m => svc m (THERAPY_RESPONSE_PROMPT t (pyStr mood)))
      = (ms3, .ok therapyTxt))
    (hgen4 : generate_with_fallback (fun m => svc m (SUMMARY_PROMPT t (pyStr mood)))
      = (ms4, .ok summaryTxt))
    (hparse4 : parseResponse summaryTxt = some (.jobj S))
    (hgen5 : generate_with_fallback (fun m => svc m (JOURNALING_ANALYSIS_PROMPT t (pyStr mood)))
      = (ms5, .ok journalTxt))
    (hparse5 : parseResponse journalTxt = some (.jobj J))
    (hsummV : (assocLast S "summary".toList).getD (.jstr []) = summaryV)
    (hactions : assocLast S "actions".toList = some (.jobj A))
    (hjoin : pyJoin ", ".toList ((assocLast J "themes".toList).getD (.jarr [])) = .ok themesTxt)
    (hplot : plot_mood_trend (save_history store
        [("timestamp".toList, .jstr now), ("input".toList, .jstr (t.take 50 ++ "...".toList)),
         ("mood".toList, mood), ("confidence".toList, confidence),
         ("summary".toList, summaryV)]) = .ok chart)
    (hfmt : format_history_html (save_history store
        [("timestamp".toList, .jstr now), ("input".toList, .jstr (t.take 50 ++ "...".toList)),
         ("mood".toList, mood), ("confidence".toList, confidence),
         ("summary".toList, summaryV)]) = .ok hh) :
    (∀ p : JsonV, assocLast J "prompts".toList = some (.jarr [p]) →
        (analyze_process apiKey svc now t a store).terminal = .success ∧
        (analyze_process apiKey svc now t a store).output.html_journal
          = journal_html_render themesTxt (pyStr p) [] ∧
        (analyze_process apiKey svc now t a store).output.html_actions
          = actions_html_render (pyStr ((assocLast A "breathing".toList).getD .jnull))
              (pyStr ((assocLast A "immediate".toList).getD .jnull))
              (pyStr ((assocLast A "long_term".toList).getD .jnull))) ∧
      (assocLast J "prompts".toList = none →
        (analyze_process apiKey svc now t a store).terminal = .success ∧
        (analyze_process apiKey svc now t a store).output.html_journal
          = journal_html_render themesTxt [] []) ∧
      (∀ k : Str, assocLast A k = none →
        pyStr ((assocLast A k).getD .jnull) = "None".toList) := by
  refine ⟨?_, ?_, ?_⟩
  · intro p hp
    have H := normal_run_success apiKey svc now t a store ms1 ms2 ms3 ms4 ms5 moodTxt ctxt
      therapyTxt summaryTxt journalTxt M C S J A mood confidence summaryV p themesTxt hh chart 1
      hkey hinput hgen1 hparse1 hmood hconf hriskF hgen2 hparse2 hiscF hgen3 hgen4 hparse4
      hgen5 hparse5 hsummV hactions hjoin (by rw [hp]; rfl) (by rw [hp]; rfl) (by decide) hplot
      hfmt
    rw [H]
    exact ⟨rfl, rfl, rfl⟩
  · intro hp
    have H := normal_run_success apiKey svc now t a store ms1 ms2 ms3 ms4 ms5 moodTxt ctxt
      therapyTxt summaryTxt journalTxt M C S J A mood confidence summaryV (.jstr []) themesTxt
      hh chart 0 hkey hinput hgen1 hparse1 hmood hconf hriskF hgen2 hparse2 hiscF hgen3 hgen4
      hparse4 hgen5 hparse5 hsummV hactions hjoin (by rw [hp]; rfl) (by rw [hp]; rfl) (by decide)
      hplot hfmt
    rw [H]
    exact ⟨rfl, rfl⟩
  · intro k hk
    rw [hk]
    rfl

/-- Witness for the amended C6: the degraded service (one prompt, empty
actions object) yields a successful run with an empty second prompt slot
and `None` action texts. -/
theorem claim_C6_witness :
    parseResponse degradedResp
        = some (.jobj [("mood".toList, .jstr "Happy".toList), ("confidence".toList, .jnum 85 0),
            ("risk_flag".toList, .jbool false), ("is_crisis".toList, .jbool false),
            ("summary".toList, .jstr "doing fine".toList), ("actions".toList, .jobj []),
            ("themes".toList, .jarr [.jstr "t1".toList]),
            ("prompts".toList, .jarr [.jstr "p1".toList])]) ∧
      ((analyze_process "k".toList svcW_degraded "t".toList "hi".toList "hi".toList []).terminal
          = .success ∧
        (analyze_process "k".toList svcW_degraded "t".toList "hi".toList "hi".toList
            []).output.html_journal
          = journal_html_render "t1".toList (pyStr (.jstr "p1".toList)) [] ∧
        (analyze_process "k".toList svcW_degraded "t".toList "hi".toList "hi".toList
            []).output.html_actions
          = actions_html_render (pyStr ((assocLast [] "breathing".toList).getD .jnull))
              (pyStr ((assocLast [] "immediate".toList).getD .jnull))
              (pyStr ((assocLast [] "long_term".toList).getD .jnull))) :=
  ⟨rfl,
    (claim_C6_graceful_degradation "k".toList svcW_degraded "t".toList "hi".toList "hi".toList []
      ["gemini-2.5-flash".toList] ["gemini-2.5-flash".toList] ["gemini-2.5-flash".toList]
      ["gemini-2.5-flash".toList] ["gemini-2.5-flash".toList]
      degradedResp degradedResp degradedResp degradedResp degradedResp
      [("mood".toList, .jstr "Happy".toList), ("confidence".toList, .jnum 85 0),
       ("risk_flag".toList, .jbool false), ("is_crisis".toList, .jbool false),
       ("summary".toList, .jstr "doing fine".toList), ("actions".toList, .jobj []),
       ("themes".toList, .jarr [.jstr "t1".toList]),
       ("prompts".toList, .jarr [.jstr "p1".toList])]
      [("mood".toList, .jstr "Happy".toList), ("confidence".toList, .jnum 85 0),
       ("risk_flag".toList, .jbool false), ("is_crisis".toList, .jbool false),
       ("summary".toList, .jstr "doing fine".toList), ("actions".toList, .jobj []),
       ("themes".toList, .jarr [.jstr "t1".toList]),
       ("prompts".toList, .jarr [.jstr "p1".toList])]
      [("mood".toList, .jstr "Happy".toList), ("confidence".toList, .jnum 85 0),
       ("risk_flag".toList, .jbool false), ("is_crisis".toList, .jbool false),
       ("summary".toList, .jstr "doing fine".toList), ("actions".toList, .jobj []),
       ("themes".toList, .jarr [.jstr "t1".toList]),
       ("prompts".toList, .jarr [.jstr "p1".toList])]
      [("mood".toList, .jstr "Happy".toList), ("confidence".toList, .jnum 85 0),
       ("risk_flag".toList, .jbool false), ("is_crisis".toList, .jbool false),
       ("summary".toList, .jstr "doing fine".toList), ("actions".toList, .jobj []),
       ("themes".toList, .jarr [.jstr "t1".toList]),
       ("prompts".toList, .jarr [.jstr "p1".toList])]
      [] (.jstr "Happy".toList) (.jnum 85 0) (.jstr "doing fine".toList) "t1".toList
      ("<div class=\x27history-container\x27>\n        <div class=\x27history-card\x27 style=\x27border-left: 4px solid #10b981;\x27>\n            <div style=\x27display: flex; justify-content: space-between; margin-bottom: 5px;\x27>\n                <span style=\x27font-weight: bold; color: #10b981;\x27>Happy</span>\n                <span style=\x27font-size: 0.8em; color: #9ca3af;\x27>t</span>\n            </div>\n            <p style=\x27font-size: 0.9em; color: #4b5563; margin: 0;\x27>doing fine</p>\n        </div>\n        </div>").toList
      (some [(JsonV.jstr "Happy".toList, 1)])
      (by decide) (by decide) rfl rfl rfl rfl rfl rfl rfl rfl rfl rfl rfl rfl rfl rfl rfl rfl
      rfl rfl).1 (.jstr "p1".toList) rfl⟩

/-! ## Normal-branch failures abort without saving (C7) -/

/-- **C7.** In the normal branch, any invocation failure of the therapy,
summary or journaling call, and any parse failure of the summary or
journaling response, aborts the run: the output is the
`"Error: <message>"` tuple, the terminal state is a pipeline error, and
the store is exactly the starting store — no entry is persisted. -/
theorem claim_C7_normal_failure_no_save
    (apiKey : Str) (svc : Str → Str → Except PyErr Str) (now t a : Str) (store : List HistObj)
    (ms1 ms2 : List Str) (moodTxt ctxt : Str)
    (M C : List (Str × JsonV)) (mood : JsonV)
    (hkey : ¬ apiKey = [])
    (hinput : ¬ (t = [] ∧ a = []))
    (hgen1 : generate_with_fallback (fun m => svc m (MOOD_DETECTION_PROMPT t)) = (ms1, .ok moodTxt))
    (hparse1 : parseResponse moodTxt = some (.jobj M))
    (hmood : (assocLast M "mood".toList).getD (.jstr "Unknown".toList) = mood)
    (hriskF : pyTruthy ((assocLast M "risk_flag".toList).getD (.jbool false)) = false)
    (hgen2 : generate_with_fallback (fun m => svc m (CRISIS_CHECK_PROMPT t)) = (ms2, .ok ctxt))
    (hparse2 : parseResponse ctxt = some (.jobj C))
    (hiscF : pyTruthy ((assocLast C "is_crisis".toList).getD .jnull) = false)
    (hfail :
      (∃ ms3 e3, generate_with_fallback (fun m => svc m (THERAPY_RESPONSE_PROMPT t (pyStr mood)))
          = (ms3, .error e3)) ∨
        (∃ ms3 th,
          generate_with_fallback (fun m => svc m (THERAPY_RESPONSE_PROMPT t (pyStr mood)))
              = (ms3, .ok th) ∧
            ((∃ ms4 e4, generate_with_fallback (fun m => svc m (SUMMARY_PROMPT t (pyStr mood)))
                = (ms4, .error e4)) ∨
              (∃ ms4 stxt,
                generate_with_fallback (fun m => svc m (SUMMARY_PROMPT t (pyStr mood)))
                    = (ms4, .ok stxt) ∧
                  (parseResponse stxt = none ∨
                    (∃ sd, parseResponse stxt = some sd ∧
                      ((∃ ms5 e5, generate_with_fallback
                          (fun m => svc m (JOURNALING_ANALYSIS_PROMPT t (pyStr mood)))
                            = (ms5, .error e5)) ∨
                        (∃ ms5 jtxt, generate_with_fallback
                            (fun m => svc m (JOURNALING_ANALYSIS_PROMPT t (pyStr mood)))
                              = (ms5, .ok jtxt) ∧
                            parseResponse jtxt = none)))))))) :
    ∃ e calls, analyze_process apiKey svc now t a store
        = ⟨errorOutput e, store, calls, .pipelineError e⟩ := by
  simp only [analyze_process]
  rw [if_neg hkey, if_neg hinput]
  simp only [hgen1, hparse1, pyGet]
  rw [hmood, hriskF]
  simp only [Bool.false_eq_true, if_false]
  simp only [hgen2, hparse2, pyGetNone, pyGet]
  rw [hiscF]
  simp only [Bool.false_eq_true, if_false]
  rcases hfail with ⟨ms3, e3, h3⟩ | ⟨ms3, th, h3, hrest⟩
  · simp only [h3]
    exact ⟨e3, _, rfl⟩
  · simp only [h3]
    rcases hrest with ⟨ms4, e4, h4⟩ | ⟨ms4, stxt, h4, hrest⟩
    · simp only [h4]
      exact ⟨e4, _, rfl⟩
    · simp only [h4]
      rcases hrest with h4p | ⟨sd, h4p, hrest⟩
      · simp only [h4p]
        exact ⟨jsonErrMsg, _, rfl⟩
      · simp only [h4p]
        rcases hrest with ⟨ms5, e5, h5⟩ | ⟨ms5, jtxt, h5, h5p⟩
        · simp only [h5]
          exact ⟨e5, _, rfl⟩
        · simp only [h5, h5p]
          exact ⟨jsonErrMsg, _, rfl⟩

/-- Witness for C7: a service whose therapy call fails (all candidates)
aborts the run in a pipeline error with the store unchanged. -/
theorem claim_C7_witness :
    (∃ ms3 e3, generate_with_fallback
        (fun m => svcW_therapyFail m
          (THERAPY_RESPONSE_PROMPT "hi".toList (pyStr (.jstr "Happy".toList))))
        = (ms3, .error e3)) ∧
      ∃ e calls, analyze_process "k".toList svcW_therapyFail "t".toList "hi".toList "hi".toList []
          = ⟨errorOutput e, [], calls, .pipelineError e⟩ :=
  ⟨⟨candidate_models, "boom".toList, rfl⟩,
    claim_C7_normal_failure_no_save "k".toList svcW_therapyFail "t".toList "hi".toList
      "hi".toList [] ["gemini-2.5-flash".toList] ["gemini-2.5-flash".toList] okResp okResp
      [("mood".toList, .jstr "Happy".toList), ("confidence".toList, .jnum 85 0),
       ("risk_flag".toList, .jbool false), ("is_crisis".toList, .jbool false),
       ("summary".toList, .jstr "doing fine".toList),
       ("actions".toList, .jobj [("breathing".toList, .jstr "b".toList),
         ("immediate".toList, .jstr "i".toList), ("long_term".toList, .jstr "l".toList)]),
       ("themes".toList, .jarr [.jstr "t1".toList, .jstr "t2".toList, .jstr "t3".toList]),
       ("prompts".toList, .jarr [.jstr "p1".toList, .jstr "p2".toList])]
      [("mood".toList, .jstr "Happy".toList), ("confidence".toList, .jnum 85 0),
       ("risk_flag".toList, .jbool false), ("is_crisis".toList, .jbool false),
       ("summary".toList, .jstr "doing fine".toList),
       ("actions".toList, .jobj [("breathing".toList, .jstr "b".toList),
         ("immediate".toList, .jstr "i".toList), ("long_term".toList, .jstr "l".toList)]),
       ("themes".toList, .jarr [.jstr "t1".toList, .jstr "t2".toList, .jstr "t3".toList]),
       ("prompts".toList, .jarr [.jstr "p1".toList, .jstr "p2".toList])]
      (.jstr "Happy".toList)
      (by decide) (by decide) rfl rfl rfl rfl rfl rfl rfl
      (Or.inl ⟨candidate_models, "boom".toList, rfl⟩)⟩

/-! ## Error rendering (C8) -/

/-- **C8, counterexample.** The empty-input terminal state renders its
message without the `"Error: "` prefix: not every error terminal state
carries that prefix. -/
theorem claim_C8_counterexample :
    (analyze_process "k".toList svcW_fail "t".toList [] [] []).terminal = .emptyInput ∧
      ("Error: ".toList).isPrefixOf
          (analyze_process "k".toList svcW_fail "t".toList [] [] []).output.lbl_mood
        = false :=
  ⟨rfl, rfl⟩

/-- **C8, amended.** Every pipeline-error run renders `"Error: <message>"`
in place of the mood label with all other output fields cleared; the
configuration-error and empty-input guards render their fixed messages
(without the `"Error: "` prefix) likewise with all other fields cleared.
No run raises: every run returns one of these tuples or a success/crisis
tuple. -/
theorem claim_C8_error_rendering :
    (∀ (apiKey : Str) (svc : Str → Str → Except PyErr Str) (now t a : Str)
        (store : List HistObj) (e : PyErr),
      (analyze_process apiKey svc now t a store).terminal = .pipelineError e →
        (analyze_process apiKey svc now t a store).output = errorOutput e) ∧
      (∀ (svc : Str → Str → Except PyErr Str) (now t a : Str) (store : List HistObj),
        (analyze_process [] svc now t a store).output
          = ⟨"⚠️ API Key Error.".toList, [], [], [], none, [], ⟨none, false⟩⟩) ∧
      (∀ (apiKey : Str) (svc : Str → Str → Except PyErr Str) (now : Str)
          (store : List HistObj), apiKey ≠ [] →
        (analyze_process apiKey svc now [] [] store).output
          = ⟨"Please share your thoughts first.".toList, [], [], [], none, [], ⟨none, false⟩⟩) := by
  refine ⟨?_, ?_, ?_⟩
  · intro apiKey svc now t a store e h
    obtain ⟨r, hr⟩ : ∃ r, analyze_process apiKey svc now t a store = r := ⟨_, rfl⟩
    rw [hr] at h ⊢
    simp only [analyze_process] at hr
    repeat' split at hr
    all_goals (subst hr; simp_all [abortRun, errorOutput])
  · intro svc now t a store
    unfold analyze_process
    rw [if_pos rfl]
  · intro apiKey svc now store hk
    unfold analyze_process
    rw [if_neg hk, if_pos ⟨rfl, rfl⟩]

/-- Witness for the amended C8: a run whose every model call fails ends in
a pipeline error and renders the `"Error: "`-prefixed tuple. -/
theorem claim_C8_witness :
    (analyze_process "k".toList svcW_fail "t".toList "hi".toList "hi".toList []).terminal
        = .pipelineError "404 models/gemini not found".toList ∧
      (analyze_process "k".toList svcW_fail "t".toList "hi".toList "hi".toList []).output
        = errorOutput "404 models/gemini not found".toList :=
  ⟨rfl, claim_C8_error_rendering.1 "k".toList svcW_fail "t".toList "hi".toList "hi".toList []
    "404 models/gemini not found".toList rfl⟩

/-- Witness for C4: with the first two candidates failing and the third
succeeding, exactly the first three candidates are attempted and the
third's response is returned. -/
theorem claim_C4_witness :
    (candidate_models = ["gemini-2.5-flash".toList, "gemini-2.5-pro".toList]
        ++ "gemini-pro".toList :: ["gemini-2.0-pro".toList]) ∧
      (∀ x ∈ ["gemini-2.5-flash".toList, "gemini-2.5-pro".toList],
        callW x = .error (errOfW x)) ∧
      callW "gemini-pro".toList = .ok "resp".toList ∧
      generate_with_fallback callW
        = (["gemini-2.5-flash".toList, "gemini-2.5-pro".toList] ++ ["gemini-pro".toList],
            .ok "resp".toList) :=
  ⟨rfl, by intro x hx; fin_cases hx <;> rfl, rfl,
    (claim_C4_fallback_order callW errOfW).1
      ["gemini-2.5-flash".toList, "gemini-2.5-pro".toList] "gemini-pro".toList
      ["gemini-2.0-pro".toList] "resp".toList rfl (by intro x hx; fin_cases hx <;> rfl) rfl⟩

end EmotiCare
